import Mathlib

/-!
# Verification of the AIML_NEWS ingestion-and-enrichment pipeline

This file gives a shallow embedding, in Lean 4, of the core algorithms of the
AIML_NEWS repository (feed polling with watermark GUIDs, retry ladders,
content extraction fallbacks, ArXiv ID recognition and bulk extraction,
LLM summary caching and deep-summary classification), together with theorems
settling the behavioural claims about them.

Conventions of the embedding:
* Python strings are `String`; character counts (`len`) are `String.length`.
* Timestamps are abstracted to `Nat` (ISO-8601 strings of the fixed format
  used by the code compare lexicographically exactly as their instants do,
  so a numeric timestamp is an order-isomorphic model).
* Network and provider I/O is modelled by explicit oracles passed as
  parameters: each oracle maps an attempt index (or a request) to the
  outcome the outside world produced for it.
* A Python function that can raise is embedded with an explicit
  exception-carrying result type; a function whose body catches every
  exception and returns a value is embedded as total.
* The SQLite store is a record of lists; each committed statement is a pure
  update of that record, and the interesting commits are also logged as
  events so that theorems can speak about how many commits happened and in
  which order.
-/

/-! ## String utilities shared by the components -/

/-- Case-insensitive equality of two characters, as used by `re.IGNORECASE`
and by SQLite's default `LIKE` on ASCII. -/
def ciEq (a b : Char) : Bool := a.toLower = b.toLower

/-- Source `[0-9]` character class. -/
def isDigitCh (c : Char) : Bool := '0' ≤ c && c ≤ '9'

/-- Source `listStartsWith pat l` holds when `pat` is a prefix of `l`
(exact character equality). -/
def listStartsWith : List Char → List Char → Bool
  | [], _ => true
  | _ :: _, [] => false
  | a :: as, b :: bs => a = b && listStartsWith as bs

/-- Substring containment on character lists (Python's `sub in s` with both
already lower-cased, and the core of SQLite's `LIKE '%pat%'`). -/
def listContains (sub : List Char) : List Char → Bool
  | [] => sub.isEmpty
  | c :: cs => listStartsWith sub (c :: cs) || listContains sub cs

/-- Python's `sub in s` on strings. -/
def strContains (s sub : String) : Bool := listContains sub.data s.data

/-- Python's `str.lower()` (ASCII-relevant part). -/
def pyLower (s : String) : String := String.mk (s.data.map Char.toLower)

/-- Case-insensitive substring containment: model of SQLite's default
`LIKE '%pat%'` operator, which is case-insensitive on ASCII. -/
def likeContains (s pat : String) : Bool :=
  listContains (pat.data.map Char.toLower) (s.data.map Char.toLower)

/-! ## LLM processor (`llm_processor.py`)

`LLMProcessor._truncate_text`, `_get_cache_key`, `_check_cache`,
`_cache_result`, `_generate_summary` and the classification part of
`_generate_deep_summary`. -/

/-- Source `LLMProcessor._truncate_text`: truncate `text` to approximately
`maxTokens` tokens using the 4-characters-per-token approximation, appending
`"..."` when truncation occurs. -/
def truncate_text (text : String) (maxTokens : Nat) : String :=
  let maxChars := maxTokens * 4
  if text.length ≤ maxChars then text
  else text.take maxChars ++ "..."

/-- The MD5 hex digest used in `_get_cache_key` is modelled by the digested
text itself: the code uses the digest only as a deterministic key component,
and equal inputs give equal digests either way. -/
def md5Hex (s : String) : String := s

/-- Source `LLMProcessor._get_cache_key`: `f"{operation}_{self.model}_{text_hash}.json"`. -/
def get_cache_key (model text operation : String) : String :=
  operation ++ "_" ++ model ++ "_" ++ md5Hex text ++ ".json"

/-- The LLM processor's observable state: the cache directory (one entry per
file name) and the number of provider calls issued so far. -/
structure LLMState where
  cache : List (String × String)
  providerCalls : Nat
deriving Repr, DecidableEq

/-- Source `LLMProcessor._check_cache`: look the key up in the cache directory and
return the stored result on a hit. -/
def check_cache (st : LLMState) (cacheKey : String) : Option String :=
  (st.cache.find? (fun kv => kv.1 = cacheKey)).map (·.2)

/-- Source `LLMProcessor._cache_result`: write the result file for the key
(overwriting any previous file of the same name). -/
def cache_result (st : LLMState) (cacheKey result : String) : LLMState :=
  { st with cache := (cacheKey, result) :: st.cache.filter (fun kv => ¬ kv.1 = cacheKey) }

/-- Outcome of one chat-completion request to the provider. -/
inductive ProviderResult where
  | ok (text : String)
  | err
deriving Repr, DecidableEq

/-- The provider-call path of `_generate_summary` (reached when the cache
held no truthy result): call the provider; a successful response is cached,
a provider error yields the error placeholder without caching. -/
def generate_summary_call (provider : Nat → ProviderResult) (cacheKey : String)
    (st : LLMState) : String × LLMState :=
  match provider st.providerCalls with
  | .ok summary =>
    let st := { st with providerCalls := st.providerCalls + 1 }
    (summary, cache_result st cacheKey summary)
  | .err =>
    let st := { st with providerCalls := st.providerCalls + 1 }
    ("Error generating summary: ...", st)

/-- Source `LLMProcessor._generate_summary` for an initialized client: build the
text to summarize from the title and the content truncated to 6000 tokens,
check the cache, and short-circuit only on a truthy hit — `if cached_result:`
is Python truthiness, so a cached empty string does not short-circuit and the
provider is called again (the oracle is indexed by the number of calls made
so far). -/
def generate_summary (provider : Nat → ProviderResult) (model title content : String)
    (st : LLMState) : String × LLMState :=
  let textToSummarize := "Title: " ++ title ++ "\n\nContent: " ++ truncate_text content 6000
  let cacheKey := get_cache_key model textToSummarize "summary"
  match check_cache st cacheKey with
  | some cached =>
    if cached = "" then generate_summary_call provider cacheKey st
    else (cached, st)
  | none => generate_summary_call provider cacheKey st

/-- The section-header keywords of `_generate_deep_summary`. -/
def sectionKeywords : List String :=
  ["introduction", "methodology", "results", "conclusion", "references"]

/-- The `is_full_paper` test of `_generate_deep_summary`:
`len(full_content) > 2000 and any(section in full_content.lower() ...)`. -/
def is_full_paper (fullContent : String) : Bool :=
  fullContent.length > 2000 &&
    sectionKeywords.any (fun sec => strContains (pyLower fullContent) sec)

/-- The branch data chosen by `_generate_deep_summary` before prompting:
the text to summarize (with its truncation budget) and the prompt type. -/
structure DeepChoice where
  textToSummarize : String
  promptType : String
deriving Repr, DecidableEq

/-- The classification-and-truncation prefix of
`LLMProcessor._generate_deep_summary`: full papers get the
`truncate_text _ 16000` budget and the `full_paper` prompt template,
everything else the `truncate_text _ 12000` budget and the `abstract`
template. -/
def deep_summary_choice (title fullContent : String) : DeepChoice :=
  if is_full_paper fullContent then
    { textToSummarize := "Title: " ++ title ++ "\n\nFull Paper Content: " ++
        truncate_text fullContent 16000
      promptType := "full_paper" }
  else
    { textToSummarize := "Title: " ++ title ++ "\n\nContent: " ++
        truncate_text fullContent 12000
      promptType := "abstract" }

/-! ## ArXiv ID extraction (`arxiv_extractor.py`, `ArXivExtractor.extract_arxiv_id`)

The eight regular expressions of `extract_arxiv_id` are built from a small
set of constructs: case-insensitive literals (all patterns are compiled with
`re.IGNORECASE`), the classes `[0-9]` and `[a-z-]`, the greedy quantifiers
`{4}`, `{4,5}`, `{7}`, `+`, `?` (on `v`) and `*` (on `[0-9]`), and a single
capture group ending each pattern.  In every pattern each quantified class
cannot match the character that follows it, and the trailing `v?[0-9]*`
matches the empty string, so greedy maximal-munch matching with no
backtracking coincides with Python's regex semantics on these patterns;
the matcher below implements exactly that. -/

/-- One token of the pattern language used by `extract_arxiv_id`'s regexes. -/
inductive ReTok where
  /-- A literal character, matched case-insensitively (`re.IGNORECASE`). -/
  | lit (c : Char)
  /-- `[0-9]{lo,hi}`, greedy (`hi = lo` embeds an exact `{n}`). -/
  | digits (lo hi : Nat)
  /-- `[0-9]*`, greedy. -/
  | digitsStar
  /-- `v?`, the optional version marker (case-insensitive). -/
  | optV
  /-- `[a-z-]+`, greedy; with `re.IGNORECASE` it also matches `A`-`Z`. -/
  | lowerDashPlus
  /-- Opening `(` of the capture group. -/
  | openGroup
  /-- Closing `)` of the capture group. -/
  | closeGroup

/-- Source `[a-z-]` under `re.IGNORECASE`. -/
def isLowerDash (c : Char) : Bool :=
  ('a' ≤ c.toLower && c.toLower ≤ 'z') || c = '-'

/-- Greedily take at most `n` characters satisfying `p` from the front,
returning the taken prefix and the rest. -/
def takeAtMost (p : Char → Bool) : Nat → List Char → List Char × List Char
  | _, [] => ([], [])
  | 0, l => ([], l)
  | n + 1, c :: cs =>
    if p c then
      let (t, r) := takeAtMost p n cs
      (c :: t, r)
    else ([], c :: cs)

/-- State of a match in progress: the unread input, the characters captured
so far (in order), and whether the capture group is open. -/
structure MatchState where
  rest : List Char
  captured : List Char
  capturing : Bool

/-- Match one pattern token against the state (maximal-munch). -/
def matchTok (t : ReTok) (s : MatchState) : Option MatchState :=
  let consume := fun (chars : List Char) (rest : List Char) =>
    { s with rest := rest
             captured := if s.capturing then s.captured ++ chars else s.captured }
  match t with
  | .lit c =>
    match s.rest with
    | [] => none
    | x :: xs => if ciEq x c then some (consume [x] xs) else none
  | .digits lo hi =>
    let (taken, rest) := takeAtMost isDigitCh hi s.rest
    if lo ≤ taken.length then some (consume taken rest) else none
  | .digitsStar =>
    let (taken, rest) := (s.rest.takeWhile isDigitCh, s.rest.dropWhile isDigitCh)
    some (consume taken rest)
  | .optV =>
    match s.rest with
    | x :: xs => if ciEq x 'v' then some (consume [x] xs) else some s
    | [] => some s
  | .lowerDashPlus =>
    let (taken, rest) := (s.rest.takeWhile isLowerDash, s.rest.dropWhile isLowerDash)
    if taken.length = 0 then none else some (consume taken rest)
  | .openGroup => some { s with capturing := true }
  | .closeGroup => some { s with capturing := false }

/-- Match a whole token list at the current position. -/
def matchToks : List ReTok → MatchState → Option MatchState
  | [], s => some s
  | t :: ts, s =>
    match matchTok t s with
    | some s' => matchToks ts s'
    | none => none

/-- Try a match starting exactly at the front of `l`; on success return the
captured group. -/
def matchAt (toks : List ReTok) (l : List Char) : Option (List Char) :=
  (matchToks toks { rest := l, captured := [], capturing := false }).map (·.captured)

/-- Source `re.search`: try the pattern at every start position, leftmost first. -/
def reSearch (toks : List ReTok) : List Char → Option (List Char)
  | [] => matchAt toks []
  | c :: cs =>
    match matchAt toks (c :: cs) with
    | some cap => some cap
    | none => reSearch toks cs

/-- Lift a literal string to case-insensitive literal tokens. -/
def litToks (s : String) : List ReTok := s.data.map ReTok.lit

/-- Source `([0-9]{4}\.[0-9]{4,5}v?[0-9]*)` — new-style ID with optional version. -/
def newIdGroup : List ReTok :=
  [.openGroup, .digits 4 4, .lit '.', .digits 4 5, .optV, .digitsStar, .closeGroup]

/-- Source `([a-z-]+/[0-9]{7}v?[0-9]*)` — old-style category ID with optional version. -/
def oldIdGroup : List ReTok :=
  [.openGroup, .lowerDashPlus, .lit '/', .digits 7 7, .optV, .digitsStar, .closeGroup]

/-- Source `([0-9]{4}\.[0-9]{4,5})` — new-style ID as captured by the `/pdf/` pattern. -/
def pdfNewIdGroup : List ReTok :=
  [.openGroup, .digits 4 4, .lit '.', .digits 4 5, .closeGroup]

/-- Source `([a-z-]+/[0-9]{7})` — old-style ID as captured by the `/pdf/` pattern. -/
def pdfOldIdGroup : List ReTok :=
  [.openGroup, .lowerDashPlus, .lit '/', .digits 7 7, .closeGroup]

/-- The eight patterns of `extract_arxiv_id`, in source order.  (With
`re.IGNORECASE` the literal spellings `arxiv.org` and `arXiv.org` coincide;
both are kept to mirror the source list.) -/
def arxivPatterns : List (List ReTok) :=
  [ litToks "arxiv.org/abs/" ++ newIdGroup
  , litToks "arxiv.org/abs/" ++ oldIdGroup
  , litToks "arxiv.org/pdf/" ++ pdfNewIdGroup
  , litToks "arxiv.org/pdf/" ++ pdfOldIdGroup
  , litToks "oai:arXiv.org:" ++ newIdGroup
  , litToks "oai:arXiv.org:" ++ oldIdGroup
  , litToks "arXiv.org/abs/" ++ newIdGroup
  , litToks "arXiv.org/abs/" ++ oldIdGroup ]

/-- Source `re.sub(r'v[0-9]+$', '', arxiv_id)`: strip one trailing group of a
(lower-case) `v` followed by at least one digit. -/
def stripVersionSuffix (l : List Char) : List Char :=
  let r := l.reverse
  let ds := r.takeWhile isDigitCh
  let rest := r.drop ds.length
  if ds.length > 0 && rest.head? = some 'v' then (rest.drop 1).reverse else l

/-- Try the patterns in order; return the first pattern's capture. -/
def firstCaptured (pats : List (List ReTok)) (l : List Char) : Option (List Char) :=
  match pats with
  | [] => none
  | p :: ps =>
    match reSearch p l with
    | some cap => some cap
    | none => firstCaptured ps l

/-- Source `ArXivExtractor.extract_arxiv_id`: empty input yields no match; otherwise
the patterns are tried in order with `re.search` and the first capture, with
any trailing version suffix removed, is returned. -/
def extract_arxiv_id (url : String) : Option String :=
  if url = "" then none
  else
    (firstCaptured arxivPatterns url.data).map (fun cap => String.mk (stripVersionSuffix cap))

example : extract_arxiv_id "oai:arXiv.org:1801.01234" = some "1801.01234" := by decide
example : extract_arxiv_id "https://arxiv.org/abs/math-ph/0001001v2" = some "math-ph/0001001" := by decide
example : extract_arxiv_id "https://arxiv.org/pdf/2502.13767" = some "2502.13767" := by decide

/-! ## The store (`database.py`)

Articles and feeds are rows; the store is a record of row lists.  Each
`Database` method that commits a single UPDATE/INSERT is a pure function on
the store. -/

/-- A row of the `articles` table (the columns the core pipeline touches). -/
structure Article where
  id : Nat
  feedId : Nat
  guid : String
  link : String
  title : String
  publishedDate : Nat
  rawContent : Option String
  processingStatus : String
  arxivId : Option String
  fullContent : Option String
  fullContentStatus : Option String
deriving Repr, DecidableEq

/-- A row of the `feeds` table (the columns the poller touches). -/
structure Feed where
  id : Nat
  url : String
  name : String
  lastPolledItemGuid : Option String
  lastSuccessfulPollTimestamp : Option Nat
  errorCount : Nat
deriving Repr, DecidableEq

/-- The `articles` table with its rowid counter. -/
structure ArtStore where
  articles : List Article
  nextArticleId : Nat
deriving Repr, DecidableEq

/-- The whole store. -/
structure DB where
  arts : ArtStore
  feeds : List Feed
deriving Repr, DecidableEq

/-- Source `SELECT id FROM articles WHERE guid = ?` (first row). -/
def findArticleByGuid (s : ArtStore) (guid : String) : Option Article :=
  s.articles.find? (fun a => a.guid = guid)

/-- Source `Database.add_article`: return the existing row's id when the GUID is
already present (no insert, no column change); otherwise insert a fresh row
with the given fields and return its id.  (The `None` result of the source's
unreachable double-failure branch is kept in the type.) -/
def add_article (s : ArtStore) (feedId : Nat) (guid link title : String)
    (publishedDate : Nat) (rawContent : Option String) (status : String) :
    Option Nat × ArtStore :=
  match findArticleByGuid s guid with
  | some existing => (some existing.id, s)
  | none =>
    let a : Article :=
      { id := s.nextArticleId, feedId := feedId, guid := guid, link := link,
        title := title, publishedDate := publishedDate, rawContent := rawContent,
        processingStatus := status, arxivId := none, fullContent := none,
        fullContentStatus := none }
    (some s.nextArticleId,
      { articles := s.articles ++ [a], nextArticleId := s.nextArticleId + 1 })

/-- Source `UPDATE articles SET ... WHERE id = ?`: apply `f` to every row whose id
matches. -/
def updateArticlesById (s : ArtStore) (articleId : Nat) (f : Article → Article) : ArtStore :=
  { s with articles := s.articles.map (fun a => if a.id = articleId then f a else a) }

/-- Source `UPDATE articles SET raw_content = ?, processing_status = ? WHERE id = ?`
(issued by `FeedReader._process_entry` on extraction success). -/
def setContentAndStatus (s : ArtStore) (articleId : Nat) (content status : String) : ArtStore :=
  updateArticlesById s articleId
    (fun a => { a with rawContent := some content, processingStatus := status })

/-- Source `UPDATE articles SET processing_status = ? WHERE id = ?`. -/
def setProcessingStatus (s : ArtStore) (articleId : Nat) (status : String) : ArtStore :=
  updateArticlesById s articleId (fun a => { a with processingStatus := status })

/-- Source `Database.update_feed_poll_status`: one UPDATE committing the new
watermark, the poll timestamp and a reset error counter together. -/
def update_feed_poll_status (feeds : List Feed) (feedId : Nat) (lastGuid : String)
    (now : Nat) : List Feed :=
  feeds.map (fun f =>
    if f.id = feedId then
      { f with lastPolledItemGuid := some lastGuid,
               lastSuccessfulPollTimestamp := some now,
               errorCount := 0 }
    else f)

/-- Source `Database.increment_feed_error`: one UPDATE incrementing only the error
counter. -/
def increment_feed_error (feeds : List Feed) (feedId : Nat) : List Feed :=
  feeds.map (fun f =>
    if f.id = feedId then { f with errorCount := f.errorCount + 1 } else f)

/-- Source `Database.update_article_arxiv_status`: sets `arxiv_id` (possibly to
NULL) and `full_content_status` together. -/
def update_article_arxiv_status (s : ArtStore) (articleId : Nat)
    (arxivId : Option String) (status : String) : ArtStore :=
  updateArticlesById s articleId
    (fun a => { a with arxivId := arxivId, fullContentStatus := some status })

/-- Source `Database.update_article_full_content`: sets `full_content` and
`full_content_status` (not `arxiv_id`). -/
def update_article_full_content (s : ArtStore) (articleId : Nat)
    (fullContent : String) (status : String) : ArtStore :=
  updateArticlesById s articleId
    (fun a => { a with fullContent := some fullContent, fullContentStatus := some status })

/-! ## Feed reader (`feed_reader.py`) -/

/-- A parsed feed entry, with the optional fields `_process_entry` and the
content extractor read (`entry.get(...)`).  `published` is the best-available
timestamp that `_get_published_date` extracts (the string-format ladder is
order-isomorphic to this numeric model).  The corner case of an explicitly
present but empty `content` list (whose `[0]` would raise) is not modelled:
`contentValue` is the first content element's `value`, defaulting to `""`. -/
structure Entry where
  idField : Option String
  linkField : Option String
  titleField : Option String
  summaryField : String
  contentValue : String
  published : Nat
deriving Repr, DecidableEq

/-- Source `entry.get('id', entry.get('link', ''))` — the GUID used everywhere. -/
def entryGuid (e : Entry) : String := e.idField.getD (e.linkField.getD "")

/-- A feed as parsed by `feedparser` (the part the poller reads). -/
structure FeedData where
  entries : List Entry
deriving Repr, DecidableEq

/-- What the network/parser did on one fetch attempt of
`FeedReader._fetch_and_parse_feed`. -/
inductive FetchAttemptResult where
  /-- HTTP 200 and `feedparser` produced a usable result (possibly bozo but
  with entries, possibly with zero entries). -/
  | parsed (fd : FeedData)
  /-- Non-200 status: the source logs and returns `None`. -/
  | httpError
  /-- `asyncio.TimeoutError`: the source logs and returns `None`. -/
  | timeout
  /-- Any other exception while fetching: caught, returns `None`. -/
  | fetchException
  /-- Parse error (`bozo`) with no entries: the inner `raise` is caught by
  the function's own blanket `except`, which returns `None`. -/
  | bozoNoEntries
deriving Repr, DecidableEq

/-- Source `FeedReader._fetch_and_parse_feed`: every failure path is caught inside
the function and becomes a `None` return; only a `parsed` outcome yields
feed data.  The function itself never raises. -/
def fetch_and_parse_feed (r : FetchAttemptResult) : Option FeedData :=
  match r with
  | .parsed fd => some fd
  | .httpError => none
  | .timeout => none
  | .fetchException => none
  | .bozoNoEntries => none

/-- Source `fetch_and_parse_feed` as seen by a caller that distinguishes a returned
value from a raised exception: it always returns. -/
def fetch_and_parse_feed_exc (r : FetchAttemptResult) : Except Unit (Option FeedData) :=
  .ok (fetch_and_parse_feed r)

/-- Source `self.retry_delays`. -/
def retryDelays : List Nat := [1, 2, 5, 10, 30]

/-- The loop of `FeedReader._fetch_and_parse_feed_with_retry` over the tail
of the delay list starting at attempt index `i`.  Returns the result (a
raised exception only if the last attempt raises), the sleeps performed, and
the number of attempts made.  An exhausted (empty) delay list falls out of
the `for` and returns `None`. -/
def fetchRetryGo (oracle : Nat → FetchAttemptResult) :
    List Nat → Nat → Except Unit (Option FeedData) × List Nat × Nat
  | [], _ => (.ok none, [], 0)
  | delay :: rest, i =>
    match fetch_and_parse_feed_exc (oracle i) with
    | .ok v => (.ok v, [], 1)
    | .error e =>
      if rest.isEmpty then (.error e, [], 1)
      else
        let (r, s, n) := fetchRetryGo oracle rest (i + 1)
        (r, delay :: s, n + 1)

/-- Source `FeedReader._fetch_and_parse_feed_with_retry`. -/
def fetch_and_parse_feed_with_retry (oracle : Nat → FetchAttemptResult) :
    Except Unit (Option FeedData) × List Nat × Nat :=
  fetchRetryGo oracle retryDelays 0

/-- What one attempt of `FeedReader._extract_content` produced: a content
string, or an exception (caught by the retry wrapper). -/
inductive ExtractOutcome where
  | ok (content : String)
  | exn
deriving Repr, DecidableEq

/-- Source `self.retry_delays[:3]` — the delays used for content extraction. -/
def extractRetryDelays : List Nat := [1, 2, 5]

/-- The loop of `FeedReader._extract_content_with_retry`: an attempt counts
as successful only when its content has length `> 200`; after a failed
attempt with index `< 2` the corresponding delay is slept. -/
def extractRetryGo (oracle : Nat → ExtractOutcome) :
    List Nat → Nat → Option String × List Nat
  | [], _ => (none, [])
  | delay :: rest, i =>
    let attempt : Option String :=
      match oracle i with
      | .ok c => if c.length > 200 then some c else none
      | .exn => none
    match attempt with
    | some c => (some c, [])
    | none =>
      let sleeps := if i < 2 then [delay] else []
      let (r, s) := extractRetryGo oracle rest (i + 1)
      (r, sleeps ++ s)

/-- Source `FeedReader._extract_content_with_retry`: run the attempt loop; if no
attempt succeeded, fall back to the feed summary when it is longer than 100
characters, else to the embedded content field.  Also returns the sleeps
performed. -/
def extract_content_with_retry (oracle : Nat → ExtractOutcome) (e : Entry) :
    String × List Nat :=
  match extractRetryGo oracle extractRetryDelays 0 with
  | (some c, sleeps) => (c, sleeps)
  | (none, sleeps) =>
    if e.summaryField ≠ "" ∧ e.summaryField.length > 100 then (e.summaryField, sleeps)
    else (e.contentValue, sleeps)

/-- Committed article-table statements, logged so theorems can count them. -/
inductive ArticleEvent where
  | insertArticle (guid : String)
  | setContent (articleId : Nat) (content status : String)
  | markExtractionFailed (articleId : Nat)
deriving Repr, DecidableEq

/-- Source `FeedReader._process_entry`: insert the article (idempotently by GUID at
the store level), then — whenever `add_article` returned an id at all —
extract content and overwrite `raw_content`/`processing_status` of the row
with that id.  The source's early return fires only when `add_article`
returned `None`, which it never does. -/
def process_entry (oracle : Nat → ExtractOutcome) (storeContentLevel : String)
    (s : ArtStore) (feedId : Nat) (e : Entry) : ArtStore × List ArticleEvent :=
  let guid := entryGuid e
  let link := e.linkField.getD ""
  let title := e.titleField.getD "No Title"
  let freshInsert := (findArticleByGuid s guid).isNone
  let insertEvents : List ArticleEvent :=
    if freshInsert then [.insertArticle guid] else []
  match add_article s feedId guid link title e.published none "pending_content" with
  | (none, s) => (s, insertEvents)
  | (some articleId, s) =>
    let (content, _sleeps) := extract_content_with_retry oracle e
    if content ≠ "" then
      let status := if storeContentLevel ≠ "none" then "pending_llm" else "processed"
      (setContentAndStatus s articleId content status,
        insertEvents ++ [.setContent articleId content status])
    else
      (setProcessingStatus s articleId "content_extraction_failed",
        insertEvents ++ [.markExtractionFailed articleId])

/-- Result of one `_process_entry` call as its caller sees it: the store
after the statements that committed, plus whether the call raised. -/
inductive ProcResult where
  | ok (s : ArtStore) (evs : List ArticleEvent)
  | exn (s : ArtStore) (evs : List ArticleEvent)
deriving Repr, DecidableEq

/-- The real `_process_entry` never raises in the pure model (its network
work is inside `extract_content_with_retry`, whose failures are values). -/
def procEntryReal (oracle : Entry → Nat → ExtractOutcome) (storeContentLevel : String)
    (feedId : Nat) (s : ArtStore) (e : Entry) : ProcResult :=
  let (s', evs) := process_entry (oracle e) storeContentLevel s feedId e
  .ok s' evs

/-- Stable descending insertion by `published` (the model of Python's stable
`sorted(entries, key=self._get_published_date, reverse=True)`). -/
def insertByPublished (e : Entry) : List Entry → List Entry
  | [] => [e]
  | x :: xs =>
    if e.published ≥ x.published then e :: x :: xs else x :: insertByPublished e xs

/-- Source `sorted(entries, key=..., reverse=True)`. -/
def sortEntriesNewestFirst : List Entry → List Entry
  | [] => []
  | e :: es => insertByPublished e (sortEntriesNewestFirst es)

/-- Outcome of the entry walk inside `poll_feed`. -/
inductive WalkOutcome where
  | completed (s : ArtStore) (latestGuid : Option String) (evs : List ArticleEvent)
  | raised (s : ArtStore) (evs : List ArticleEvent)
deriving Repr, DecidableEq

/-- The entry walk of `FeedReader.poll_feed`: stop at the stored watermark
GUID; remember the first (most recent) new GUID; process each new entry via
`procEntry`, whose exception aborts the walk (keeping the statements that
already committed). -/
def pollWalk (procEntry : ArtStore → Entry → ProcResult) (lastGuid : Option String) :
    List Entry → Option String → ArtStore → List ArticleEvent → WalkOutcome
  | [], latest, s, evs => .completed s latest evs
  | e :: rest, latest, s, evs =>
    let guid := entryGuid e
    if lastGuid = some guid then .completed s latest evs
    else
      let latest := if latest.isNone then some guid else latest
      match procEntry s e with
      | .ok s' pevs => pollWalk procEntry lastGuid rest latest s' (evs ++ pevs)
      | .exn s' pevs => .raised s' (evs ++ pevs)

/-- Feed-level commits of one poll, logged in order. -/
inductive PollEvent where
  | article (ev : ArticleEvent)
  | commitPollStatus (feedId : Nat) (guid : String)
  | incrementError (feedId : Nat)
deriving Repr, DecidableEq

/-- Source `FeedReader.poll_feed`: fetch with the retry wrapper; a `None`/empty
result increments the feed's error counter; otherwise sort entries
newest-first, walk them down to the watermark, and afterwards — only when
the first new GUID seen is truthy (`if latest_guid:` is Python truthiness:
set and non-empty) — commit the watermark once; an exception anywhere inside
the `try` increments the error counter instead. -/
def poll_feed (fetchOracle : Nat → FetchAttemptResult)
    (procEntry : ArtStore → Entry → ProcResult) (now : Nat) (feed : Feed) (db : DB) :
    DB × List PollEvent :=
  let lastGuid := feed.lastPolledItemGuid
  let (fetched, _sleeps, _attempts) := fetch_and_parse_feed_with_retry fetchOracle
  match fetched with
  | .error _ =>
    ({ db with feeds := increment_feed_error db.feeds feed.id }, [.incrementError feed.id])
  | .ok none =>
    ({ db with feeds := increment_feed_error db.feeds feed.id }, [.incrementError feed.id])
  | .ok (some fd) =>
    if fd.entries.isEmpty then
      ({ db with feeds := increment_feed_error db.feeds feed.id }, [.incrementError feed.id])
    else
      let entries := sortEntriesNewestFirst fd.entries
      match pollWalk procEntry lastGuid entries none db.arts [] with
      | .raised s' evs =>
        ({ arts := s', feeds := increment_feed_error db.feeds feed.id },
          evs.map .article ++ [.incrementError feed.id])
      | .completed s' latest evs =>
        match latest with
        | some g =>
          if g = "" then ({ db with arts := s' }, evs.map .article)
          else
            ({ arts := s', feeds := update_feed_poll_status db.feeds feed.id g now },
              evs.map .article ++ [.commitPollStatus feed.id g])
        | none => ({ db with arts := s' }, evs.map .article)

/-! ## ArXiv extractor (`arxiv_extractor.py`) -/

/-- What `fetch_arxiv_content` produced for an ID.  The function catches its
own exceptions, so `unavailable` covers both stages failing; `exn` keeps the
caller's dead `except` branch honest. -/
inductive ArxivFetchResult where
  | ok (content : String)
  | unavailable
  | exn
deriving Repr, DecidableEq

/-- The marker half of the candidate query: `link LIKE '%arxiv.org%' OR guid
LIKE '%arxiv.org%' OR link LIKE '%arXiv.org%' OR guid LIKE '%arXiv.org%'`
(SQLite `LIKE` is case-insensitive). -/
def arxivMarker (a : Article) : Bool :=
  likeContains a.link "arxiv.org" || likeContains a.guid "arxiv.org" ||
  likeContains a.link "arXiv.org" || likeContains a.guid "arXiv.org"

/-- The status half of the candidate query: `full_content_status =
'not_applicable' OR full_content_status IS NULL OR arxiv_id IS NULL`. -/
def arxivStatusOpen (a : Article) : Bool :=
  a.fullContentStatus = some "not_applicable" || a.fullContentStatus = none ||
  a.arxivId = none

/-- The candidate filter of `Database.get_articles_for_arxiv_extraction`:
an arxiv.org marker in link or GUID, and extraction status
unset/`not_applicable` or ArXiv ID unset. -/
def arxiv_candidate (a : Article) : Bool :=
  arxivMarker a && arxivStatusOpen a

/-- Stable descending insertion by `publishedDate` (`ORDER BY published_date
DESC`). -/
def insertArticleByPublished (a : Article) : List Article → List Article
  | [] => [a]
  | x :: xs =>
    if a.publishedDate ≥ x.publishedDate then a :: x :: xs
    else x :: insertArticleByPublished a xs

/-- Sort articles newest-first. -/
def sortArticlesNewestFirst : List Article → List Article
  | [] => []
  | a :: as => insertArticleByPublished a (sortArticlesNewestFirst as)

/-- Source `Database.get_articles_for_arxiv_extraction`. -/
def get_articles_for_arxiv_extraction (s : ArtStore) (limit : Nat) : List Article :=
  (sortArticlesNewestFirst (s.articles.filter arxiv_candidate)).take limit

/-- Source `ArXivExtractor.process_article`: extract an ID from link then GUID; no
ID marks the row `not_applicable` with a NULL `arxiv_id`; an ID is stored
with status `pending`, then the fetched full content is stored as
`extracted`, or the row is marked `failed`. -/
def arxiv_process_article (fetch : String → ArxivFetchResult) (s : ArtStore)
    (b : Article) : ArtStore :=
  match (extract_arxiv_id b.link).orElse (fun _ => extract_arxiv_id b.guid) with
  | none => update_article_arxiv_status s b.id none "not_applicable"
  | some arxivId =>
    let s := update_article_arxiv_status s b.id (some arxivId) "pending"
    match fetch arxivId with
    | .ok content => update_article_full_content s b.id content "extracted"
    | .unavailable => update_article_arxiv_status s b.id (some arxivId) "failed"
    | .exn => update_article_arxiv_status s b.id (some arxivId) "failed"

/-- One iteration of the `while True` loop of
`ArXivExtractor.start_bulk_extraction`: pull a batch and process each
article in it (per-article exceptions are caught and do not abort the
batch). -/
def bulk_extraction_step (fetch : String → ArxivFetchResult) (batchSize : Nat)
    (s : ArtStore) : ArtStore :=
  (get_articles_for_arxiv_extraction s batchSize).foldl (arxiv_process_article fetch) s

/-! ## Concrete instances used by counterexamples and witnesses -/

/-- A full-paper-classified content of 20007 characters: long enough to
separate a 16000-character truncation budget from the source's
16000-token one. -/
def longPaperContent : String :=
  String.mk ("results".data ++ List.replicate 20000 'a')

/-- A 3000-character content containing the section keyword `methodology`. -/
def methodologyContent : String :=
  String.mk ("methodology".data ++ List.replicate 2989 'a')

/-- A 500-character abstract-like content. -/
def shortAbstractContent : String :=
  String.mk (List.replicate 500 'b')

/-- Extracted content of 201 characters — just over the success threshold. -/
def longExtractedContent : String := String.mk (List.replicate 201 'x')

/-- An already-processed article with GUID `"G"`. -/
def dupArticle : Article :=
  { id := 7, feedId := 1, guid := "G", link := "https://example.com/old",
    title := "Old title", publishedDate := 5, rawContent := some "old content",
    processingStatus := "processed", arxivId := none, fullContent := none,
    fullContentStatus := none }

/-- A store holding only `dupArticle`. -/
def dupStore : ArtStore := { articles := [dupArticle], nextArticleId := 8 }

/-- A re-delivered feed entry carrying the already-stored GUID `"G"`. -/
def dupEntry : Entry :=
  { idField := some "G", linkField := some "https://example.com/new",
    titleField := some "New title", summaryField := "", contentValue := "",
    published := 9 }

/-- An entry with a short summary and short embedded content. -/
def shortEntry : Entry :=
  { idField := some "E", linkField := some "https://example.com/e",
    titleField := none, summaryField := "just a short feed summary",
    contentValue := "tiny", published := 0 }

/-- An article whose link carries the arxiv.org marker but matches none of
the ID patterns. -/
def listingArticle : Article :=
  { id := 3, feedId := 1, guid := "tag:site,2025:item-3",
    link := "https://arxiv.org/list/cs.AI/recent", title := "Listing",
    publishedDate := 11, rawContent := none, processingStatus := "processed",
    arxivId := none, fullContent := none, fullContentStatus := none }

/-- A store containing only `listingArticle`. -/
def listingStore : ArtStore := { articles := [listingArticle], nextArticleId := 4 }

/-- Failure of the attempt at index `i`: it raised, or its content was no
longer than 200 characters. -/
def extractAttemptFailed (r : ExtractOutcome) : Prop :=
  match r with
  | .ok c => c.length ≤ 200
  | .exn => True

/-- A feed with watermark `"W"` and a clean error counter. -/
def wFeed : Feed :=
  { id := 1, url := "https://example.com/feed.xml", name := "example",
    lastPolledItemGuid := some "W", lastSuccessfulPollTimestamp := none,
    errorCount := 0 }

/-- A store whose only feed is `wFeed` and whose articles table is empty. -/
def wDB : DB := { arts := { articles := [], nextArticleId := 1 }, feeds := [wFeed] }

/-- A minimal entry with GUID `"E1"`. -/
def e1Entry : Entry :=
  { idField := some "E1", linkField := none, titleField := none,
    summaryField := "", contentValue := "", published := 1 }

/-- Projection: the GUID of an insert event. -/
def evInsertGuid : ArticleEvent → Option String
  | .insertArticle g => some g
  | _ => none

/-- Projection: the GUID of an insert event at poll level. -/
def pollInsertGuid : PollEvent → Option String
  | .article (.insertArticle g) => some g
  | _ => none

/-- Projection: the payload of a poll-status commit event. -/
def pollCommit : PollEvent → Option (Nat × String)
  | .commitPollStatus fid g => some (fid, g)
  | _ => none

/-- A minimal entry with the given GUID and timestamp. -/
def mkGEntry (g : String) (p : Nat) : Entry :=
  { idField := some g, linkField := none, titleField := none, summaryField := "",
    contentValue := "", published := p }

/-- A feed with stored watermark `"G0"`. -/
def g0Feed : Feed :=
  { id := 2, url := "https://example.com/g.xml", name := "g",
    lastPolledItemGuid := some "G0", lastSuccessfulPollTimestamp := none,
    errorCount := 0 }

/-- A store with an empty articles table whose only feed is `g0Feed`. -/
def g0DB : DB := { arts := { articles := [], nextArticleId := 1 }, feeds := [g0Feed] }

/-- Fetched entries `G2, G0, G1, G3` in shuffled timestamp order; sorted
newest-first they are `[G1, G2, G3, G0]`. -/
def gFeedData : FeedData :=
  { entries := [mkGEntry "G2" 3, mkGEntry "G0" 1, mkGEntry "G1" 4, mkGEntry "G3" 2] }

/-- The invariant driving the non-termination argument for bulk extraction:
some row still carries the problem article's identity and fields and remains
selectable, and row ids stay unique. -/
def bulkWitnessInv (a : Article) (t : ArtStore) : Prop :=
  (∃ x, x ∈ t.articles ∧ x.id = a.id ∧ x.link = a.link ∧ x.guid = a.guid ∧
    arxivStatusOpen x = true) ∧ (t.articles.map (·.id)).Nodup

/-! ## Theorems -/

/-- Helper: a non-empty needle is found at the front of a haystack. -/
theorem listContains_of_startsWith (sub l : List Char)
    (h : listStartsWith sub l = true) (hne : l ≠ []) : listContains sub l = true := by
  cases l with
  | nil => exact absurd rfl hne
  | cons c cs => simp [listContains, h]

/-- Helper: `listStartsWith` holds on an extension of the needle itself. -/
theorem listStartsWith_self_append (sub r : List Char) :
    listStartsWith sub (sub ++ r) = true := by
  induction sub with
  | nil => simp [listStartsWith]
  | cons c cs ih => simp [listStartsWith, ih]

/-- C7: ArXiv ID extraction on the specified concrete shapes: a versioned
`/abs/` URL and an OAI GUID yield the version-stripped ID, a non-ArXiv URL
yields no match, and old-style category IDs, case variations and `/pdf/`
URLs are covered. -/
theorem extract_arxiv_id_cases :
    extract_arxiv_id "https://arxiv.org/abs/2502.13767v3" = some "2502.13767" ∧
    extract_arxiv_id "oai:arXiv.org:1801.01234" = some "1801.01234" ∧
    extract_arxiv_id "https://example.com/news/2502.13767" = none ∧
    extract_arxiv_id "https://arxiv.org/abs/math-ph/0001001v2" = some "math-ph/0001001" ∧
    extract_arxiv_id "https://ARXIV.ORG/ABS/2502.13767v2" = some "2502.13767" ∧
    extract_arxiv_id "https://arxiv.org/pdf/2502.13767v1" = some "2502.13767" := by
  decide

/-- C8: when the GUID is already present, `add_article` returns the existing
row's id and leaves the store exactly as it was — no insert, no column
overwrite. -/
theorem add_article_idempotent (s : ArtStore) (a : Article) (feedId : Nat)
    (guid link title : String) (publishedDate : Nat) (rawContent : Option String)
    (status : String) (h : findArticleByGuid s guid = some a) :
    add_article s feedId guid link title publishedDate rawContent status = (some a.id, s) := by
  simp [add_article, h]

/-- Witness for `add_article_idempotent` at the concrete duplicate store. -/
theorem add_article_idempotent_witness :
    findArticleByGuid dupStore "G" = some dupArticle ∧
    add_article dupStore 1 "G" "l" "t" 9 none "pending_content" =
      (some dupArticle.id, dupStore) :=
  ⟨by decide, add_article_idempotent dupStore dupArticle 1 "G" "l" "t" 9 none
    "pending_content" (by decide)⟩

/-- The cache key `_generate_summary` uses for a (model, title, content)
triple: operation `"summary"`, the model identifier, and the digest of the
exact truncated prompt text. -/
def summaryCacheKey (model title content : String) : String :=
  get_cache_key model ("Title: " ++ title ++ "\n\nContent: " ++ truncate_text content 6000)
    "summary"

/-- Helper: a freshly cached result is found under its key. -/
theorem check_cache_cache_result (st : LLMState) (key result : String) :
    check_cache (cache_result st key result) key = some result := by
  simp [check_cache, cache_result, List.find?]

/-- C4: with a cold cache for the key and a provider whose first answer is
non-empty (Python's `if cached_result:` treats an empty cached string as a
miss), two identical summary generations issue exactly one provider call;
the first persists the generated summary under the key built from the
operation name, model and truncated prompt text, and the second returns the
cached text unchanged with no state change. -/
theorem generate_summary_cache_round_trip (provider : Nat → ProviderResult)
    (model title content answer : String) (st : LLMState)
    (hmiss : check_cache st (summaryCacheKey model title content) = none)
    (hok : provider st.providerCalls = .ok answer)
    (hne : answer ≠ "") :
    (generate_summary provider model title content st).1 = answer ∧
    (generate_summary provider model title content st).2.providerCalls =
      st.providerCalls + 1 ∧
    check_cache (generate_summary provider model title content st).2
      (summaryCacheKey model title content) = some answer ∧
    generate_summary provider model title content
        (generate_summary provider model title content st).2 =
      (answer, (generate_summary provider model title content st).2) := by
  have hcall : generate_summary_call provider (summaryCacheKey model title content) st =
      (answer, cache_result { st with providerCalls := st.providerCalls + 1 }
        (summaryCacheKey model title content) answer) := by
    unfold generate_summary_call
    rw [hok]
  have h1 : generate_summary provider model title content st =
      (answer, cache_result { st with providerCalls := st.providerCalls + 1 }
        (summaryCacheKey model title content) answer) := by
    simp only [generate_summary, summaryCacheKey] at hmiss hcall ⊢
    rw [hmiss, hcall]
  have hhit : check_cache (generate_summary provider model title content st).2
      (summaryCacheKey model title content) = some answer := by
    rw [h1]
    exact check_cache_cache_result _ _ _
  have h2 : ∀ st2 : LLMState,
      check_cache st2 (summaryCacheKey model title content) = some answer →
      generate_summary provider model title content st2 = (answer, st2) := by
    intro st2 hh
    simp only [generate_summary, summaryCacheKey] at hh ⊢
    simp only [hh, if_neg hne]
  exact ⟨by rw [h1], by rw [h1]; simp [cache_result], hhit, h2 _ hhit⟩

/-- Witness for `generate_summary_cache_round_trip` on an empty cache with
the non-empty answer `"S"`. -/
theorem generate_summary_cache_round_trip_witness :
    check_cache ⟨[], 0⟩ (summaryCacheKey "gpt-4o" "T" "C") = none ∧
    ("S" : String) ≠ "" ∧
    (generate_summary (fun _ => .ok "S") "gpt-4o" "T" "C" ⟨[], 0⟩).1 = "S" ∧
    (generate_summary (fun _ => .ok "S") "gpt-4o" "T" "C" ⟨[], 0⟩).2.providerCalls = 1 ∧
    generate_summary (fun _ => .ok "S") "gpt-4o" "T" "C"
        (generate_summary (fun _ => .ok "S") "gpt-4o" "T" "C" ⟨[], 0⟩).2 =
      ("S", (generate_summary (fun _ => .ok "S") "gpt-4o" "T" "C" ⟨[], 0⟩).2) := by
  have h := generate_summary_cache_round_trip (fun _ => .ok "S") "gpt-4o" "T" "C" "S"
    ⟨[], 0⟩ (by rfl) (by rfl) (by decide)
  exact ⟨by rfl, by decide, h.1, h.2.1, h.2.2.2⟩

/-- C2: the fetch retry ladder never runs.  `_fetch_and_parse_feed` catches
every failure internally and returns `None`, so the wrapper's first attempt
always returns: for every oracle the wrapper makes exactly one attempt,
sleeps through none of the configured delays `[1,2,5,10,30]`, and never
surfaces an exception; in particular a transient HTTP failure yields `None`
after a single attempt, upon which `poll_feed` immediately increments the
feed's error counter. -/
theorem fetch_retry_ladder_never_retries :
    (∀ oracle : Nat → FetchAttemptResult,
      fetch_and_parse_feed_with_retry oracle =
        (.ok (fetch_and_parse_feed (oracle 0)), [], 1)) ∧
    fetch_and_parse_feed .httpError = none ∧
    (∀ (procEntry : ArtStore → Entry → ProcResult) (now : Nat) (feed : Feed) (db : DB),
      poll_feed (fun _ => .httpError) procEntry now feed db =
        ({ db with feeds := increment_feed_error db.feeds feed.id },
          [.incrementError feed.id])) :=
  ⟨fun _ => rfl, rfl, fun _ _ _ _ => rfl⟩

set_option maxRecDepth 8000 in
/-- C3: processing a re-delivered entry whose GUID already exists is not
idempotent: `add_article` returns the existing id (never `None`), so
`_process_entry`'s duplicate check does not fire and the existing row's
`raw_content` and `processing_status` are overwritten. -/
theorem process_entry_overwrites_duplicate :
    (add_article dupStore 1 "G" "https://example.com/new" "New title" 9 none
        "pending_content").1 = some 7 ∧
    process_entry (fun _ => .ok longExtractedContent) "full" dupStore 1 dupEntry =
      ({ articles := [{ dupArticle with
                          rawContent := some longExtractedContent
                          processingStatus := "pending_llm" }],
         nextArticleId := 8 },
       [.setContent 7 longExtractedContent "pending_llm"]) := by
  constructor
  · decide
  · decide

/-- Helper: the branch equation of `is_full_paper` as a proposition. -/
theorem is_full_paper_iff (c : String) :
    is_full_paper c = true ↔
      2000 < c.length ∧ ∃ sec ∈ sectionKeywords, strContains (pyLower c) sec = true := by
  unfold is_full_paper
  simp only [Bool.and_eq_true, decide_eq_true_eq, List.any_eq_true, gt_iff_lt]

/-- Helper: a needle placed at the front of a string is contained in it. -/
theorem strContains_front (pre : String) (rest : List Char) (hne : pre.data ≠ []) :
    listContains pre.data (pre.data ++ rest) = true :=
  listContains_of_startsWith _ _ (listStartsWith_self_append _ _)
    (by simp [hne])

/-- Helper: the length of `longPaperContent`. -/
theorem longPaperContent_length : longPaperContent.length = 20007 := by
  show (("results").data ++ List.replicate 20000 'a').length = 20007
  rw [List.length_append, List.length_replicate]
  rfl

/-- Helper: `longPaperContent` contains the section keyword `results`. -/
theorem longPaperContent_contains_results :
    strContains (pyLower longPaperContent) "results" = true := by
  show listContains ("results").data
    ((("results").data ++ List.replicate 20000 'a').map Char.toLower) = true
  have hmap : (("results").data ++ List.replicate 20000 'a').map Char.toLower =
      ("results").data ++ List.replicate 20000 'a' := by
    rw [List.map_append, List.map_replicate]
    rfl
  rw [hmap]
  exact strContains_front "results" _ (by decide)

/-- C5 counterexample: a full-paper-classified content of 20007 characters
passes through `_generate_deep_summary`'s truncation unchanged — under a
16000-**character** truncation budget it would have been cut, so the
full-paper branch's budget is not 16000 characters. -/
theorem deep_summary_budget_not_chars :
    is_full_paper longPaperContent = true ∧
    longPaperContent.length = 20007 ∧
    truncate_text longPaperContent 16000 = longPaperContent ∧
    16000 < (deep_summary_choice "T" longPaperContent).textToSummarize.length := by
  have hfp : is_full_paper longPaperContent = true := by
    rw [is_full_paper_iff]
    refine ⟨by rw [longPaperContent_length]; norm_num, "results", by simp [sectionKeywords],
      longPaperContent_contains_results⟩
  have htr : truncate_text longPaperContent 16000 = longPaperContent := by
    rw [truncate_text, if_pos (by rw [longPaperContent_length]; norm_num)]
  refine ⟨hfp, longPaperContent_length, htr, ?_⟩
  rw [deep_summary_choice, if_pos hfp]
  simp only [htr, String.length_append, longPaperContent_length]
  norm_num

/-- C5 (amended): deep-summary generation classifies content as full paper
exactly when its length exceeds 2000 characters and it contains a section
keyword case-insensitively; the full-paper branch truncates to a
16000-**token** budget, i.e. 64000 characters (4 chars/token), with the
full-paper template, the other branch to 12000 tokens = 48000 characters
with the abstract template; a 3000-character text containing `methodology`
classifies as full paper and a 500-character abstract as abstract-like. -/
theorem deep_summary_classification :
    (∀ c : String, is_full_paper c = true ↔
      2000 < c.length ∧ ∃ sec ∈ sectionKeywords, strContains (pyLower c) sec = true) ∧
    (∀ c : String, truncate_text c 16000 =
      if c.length ≤ 64000 then c else c.take 64000 ++ "...") ∧
    (∀ c : String, truncate_text c 12000 =
      if c.length ≤ 48000 then c else c.take 48000 ++ "...") ∧
    (∀ t c : String, is_full_paper c = true → deep_summary_choice t c =
      { textToSummarize := "Title: " ++ t ++ "\n\nFull Paper Content: " ++
          truncate_text c 16000
        promptType := "full_paper" }) ∧
    (∀ t c : String, is_full_paper c = false → deep_summary_choice t c =
      { textToSummarize := "Title: " ++ t ++ "\n\nContent: " ++ truncate_text c 12000
        promptType := "abstract" }) ∧
    (∀ c : String, c.length = 3000 → strContains (pyLower c) "methodology" = true →
      is_full_paper c = true) ∧
    (∀ c : String, c.length = 500 → is_full_paper c = false) := by
  refine ⟨is_full_paper_iff, ?_, ?_, ?_, ?_, ?_, ?_⟩
  · intro c; rw [truncate_text]
  · intro c; rw [truncate_text]
  · intro t c h; rw [deep_summary_choice, if_pos h]
  · intro t c h; rw [deep_summary_choice, if_neg (by simp [h])]
  · intro c hlen hcontains
    rw [is_full_paper_iff]
    exact ⟨by omega, "methodology", by simp [sectionKeywords], hcontains⟩
  · intro c hlen
    cases h : is_full_paper c with
    | false => rfl
    | true =>
      obtain ⟨h1, -⟩ := (is_full_paper_iff c).mp h
      omega

/-- Witness for `deep_summary_classification` at the concrete instances:
the 3000-character `methodology` text and the 500-character abstract. -/
theorem deep_summary_classification_witness :
    methodologyContent.length = 3000 ∧
    strContains (pyLower methodologyContent) "methodology" = true ∧
    is_full_paper methodologyContent = true ∧
    (deep_summary_choice "T" methodologyContent).promptType = "full_paper" ∧
    shortAbstractContent.length = 500 ∧
    is_full_paper shortAbstractContent = false := by
  have h3000 : methodologyContent.length = 3000 := by
    show (("methodology").data ++ List.replicate 2989 'a').length = 3000
    rw [List.length_append, List.length_replicate]
    rfl
  have hcont : strContains (pyLower methodologyContent) "methodology" = true := by
    show listContains ("methodology").data
      ((("methodology").data ++ List.replicate 2989 'a').map Char.toLower) = true
    have hmap : (("methodology").data ++ List.replicate 2989 'a').map Char.toLower =
        ("methodology").data ++ List.replicate 2989 'a' := by
      rw [List.map_append, List.map_replicate]
      rfl
    rw [hmap]
    exact strContains_front "methodology" _ (by decide)
  have h500 : shortAbstractContent.length = 500 := by
    show (List.replicate 500 'b').length = 500
    rw [List.length_replicate]
  have hfp := deep_summary_classification.2.2.2.2.2.1 methodologyContent h3000 hcont
  have hab := deep_summary_classification.2.2.2.2.2.2 shortAbstractContent h500
  have hchoice := deep_summary_classification.2.2.2.1 "T" methodologyContent hfp
  exact ⟨h3000, hcont, hfp, by rw [hchoice], h500, hab⟩

/-- C6 counterexample: with every extraction attempt failing, the delays
slept between the 3 attempts are exactly `[1, 2]` — the claimed third delay
of 5 seconds never occurs. -/
theorem extract_retry_delays_counterexample :
    (extract_content_with_retry (fun _ => .exn) shortEntry).2 = [1, 2] ∧
    5 ∉ (extract_content_with_retry (fun _ => .exn) shortEntry).2 := by
  decide

/-- Helper: a retry step whose attempt yields long-enough content returns it
with no further sleeping. -/
theorem extractRetryGo_step_succ (oracle : Nat → ExtractOutcome) (d : Nat)
    (rest : List Nat) (i : Nat) (c : String) (h : oracle i = .ok c)
    (hlen : 200 < c.length) :
    extractRetryGo oracle (d :: rest) i = (some c, []) := by
  have hgt : c.length > 200 := by omega
  simp [extractRetryGo, h, hgt]

/-- Helper: a retry step whose attempt failed recurses, sleeping the step's
delay when the attempt index is below 2. -/
theorem extractRetryGo_step_fail (oracle : Nat → ExtractOutcome) (d : Nat)
    (rest : List Nat) (i : Nat) (h : extractAttemptFailed (oracle i)) :
    extractRetryGo oracle (d :: rest) i =
      ((extractRetryGo oracle rest (i + 1)).1,
        (if i < 2 then [d] else []) ++ (extractRetryGo oracle rest (i + 1)).2) := by
  cases hrec : extractRetryGo oracle rest (i + 1) with
  | mk r sl =>
    cases ho : oracle i with
    | ok c =>
      rw [ho] at h
      simp only [extractAttemptFailed] at h
      have hn : ¬ (c.length > 200) := by omega
      simp [extractRetryGo, ho, hn, hrec]
    | exn =>
      simp [extractRetryGo, ho, hrec]

/-- C6 (amended): content extraction makes up to 3 attempts with delays of 1
and then 2 seconds between them (the third configured delay, 5, is never
slept); an attempt succeeds only when its content exceeds 200 characters;
when every attempt fails, the feed summary is returned when it is longer
than 100 characters, else the embedded content field, however short. -/
theorem extract_content_with_retry_behavior :
    (∀ (oracle : Nat → ExtractOutcome) (e : Entry) (c : String),
      oracle 0 = .ok c → 200 < c.length →
      extract_content_with_retry oracle e = (c, [])) ∧
    (∀ (oracle : Nat → ExtractOutcome) (e : Entry) (c : String),
      extractAttemptFailed (oracle 0) → oracle 1 = .ok c → 200 < c.length →
      extract_content_with_retry oracle e = (c, [1])) ∧
    (∀ (oracle : Nat → ExtractOutcome) (e : Entry) (c : String),
      extractAttemptFailed (oracle 0) → extractAttemptFailed (oracle 1) →
      oracle 2 = .ok c → 200 < c.length →
      extract_content_with_retry oracle e = (c, [1, 2])) ∧
    (∀ (oracle : Nat → ExtractOutcome) (e : Entry),
      (∀ i, i < 3 → extractAttemptFailed (oracle i)) →
      extract_content_with_retry oracle e =
        ((if 100 < e.summaryField.length then e.summaryField else e.contentValue),
          [1, 2])) := by
  refine ⟨?_, ?_, ?_, ?_⟩
  · intro oracle e c h hlen
    have hgo : extractRetryGo oracle [1, 2, 5] 0 = (some c, []) :=
      extractRetryGo_step_succ oracle 1 [2, 5] 0 c h hlen
    unfold extract_content_with_retry
    rw [show extractRetryDelays = [1, 2, 5] from rfl, hgo]
  · intro oracle e c h0 h1 hlen
    have hgo : extractRetryGo oracle [1, 2, 5] 0 = (some c, [1]) := by
      rw [extractRetryGo_step_fail oracle 1 [2, 5] 0 h0,
        extractRetryGo_step_succ oracle 2 [5] 1 c h1 hlen]
      rfl
    unfold extract_content_with_retry
    rw [show extractRetryDelays = [1, 2, 5] from rfl, hgo]
  · intro oracle e c h0 h1 h2 hlen
    have hgo : extractRetryGo oracle [1, 2, 5] 0 = (some c, [1, 2]) := by
      rw [extractRetryGo_step_fail oracle 1 [2, 5] 0 h0,
        extractRetryGo_step_fail oracle 2 [5] 1 h1,
        extractRetryGo_step_succ oracle 5 [] 2 c h2 hlen]
      rfl
    unfold extract_content_with_retry
    rw [show extractRetryDelays = [1, 2, 5] from rfl, hgo]
  · intro oracle e hall
    have hgo : extractRetryGo oracle [1, 2, 5] 0 = (none, [1, 2]) := by
      rw [extractRetryGo_step_fail oracle 1 [2, 5] 0 (hall 0 (by omega)),
        extractRetryGo_step_fail oracle 2 [5] 1 (hall 1 (by omega)),
        extractRetryGo_step_fail oracle 5 [] 2 (hall 2 (by omega))]
      rfl
    unfold extract_content_with_retry
    rw [show extractRetryDelays = [1, 2, 5] from rfl, hgo]
    by_cases h : 100 < e.summaryField.length
    · have hne : e.summaryField ≠ "" := by
        intro hemp
        rw [hemp] at h
        simp at h
      have hcond : e.summaryField ≠ "" ∧ e.summaryField.length > 100 := ⟨hne, by omega⟩
      rw [if_pos h]
      simp only [if_pos hcond]
    · have hcond : ¬ (e.summaryField ≠ "" ∧ e.summaryField.length > 100) := by
        rintro ⟨-, hgt⟩
        omega
      rw [if_neg h]
      simp only [if_neg hcond]

/-- Witness for `extract_content_with_retry_behavior`: a first-attempt
success with 201-character content, and an all-failures run falling back to
the short embedded content with sleeps `[1, 2]`. -/
theorem extract_content_with_retry_behavior_witness :
    200 < longExtractedContent.length ∧
    extract_content_with_retry (fun _ => .ok longExtractedContent) shortEntry =
      (longExtractedContent, []) ∧
    (∀ i, i < 3 → extractAttemptFailed ((fun _ => ExtractOutcome.exn) i)) ∧
    extract_content_with_retry (fun _ => .exn) shortEntry =
      (shortEntry.contentValue, [1, 2]) := by
  have hlen : 200 < longExtractedContent.length := by
    show 200 < (List.replicate 201 'x').length
    rw [List.length_replicate]
    omega
  refine ⟨hlen,
    extract_content_with_retry_behavior.1 (fun _ => .ok longExtractedContent)
      shortEntry longExtractedContent rfl hlen,
    fun i _ => trivial, ?_⟩
  have h := extract_content_with_retry_behavior.2.2.2 (fun _ => .exn) shortEntry
    (fun i _ => trivial)
  rw [h, if_neg (by decide)]

/-- Helper: `poll_feed` when the fetch produced a feed with entries,
expressed through its walk's outcome. -/
theorem poll_feed_of_fetch_ok (fetchOracle : Nat → FetchAttemptResult)
    (procEntry : ArtStore → Entry → ProcResult) (now : Nat) (feed : Feed) (db : DB)
    (fd : FeedData)
    (hfetch : (fetch_and_parse_feed_with_retry fetchOracle).1 = .ok (some fd))
    (hne : fd.entries.isEmpty = false) :
    poll_feed fetchOracle procEntry now feed db =
      match pollWalk procEntry feed.lastPolledItemGuid
          (sortEntriesNewestFirst fd.entries) none db.arts [] with
      | .raised s' evs =>
        ({ arts := s', feeds := increment_feed_error db.feeds feed.id },
          evs.map .article ++ [.incrementError feed.id])
      | .completed s' latest evs =>
        match latest with
        | some g =>
          if g = "" then ({ db with arts := s' }, evs.map .article)
          else
            ({ arts := s', feeds := update_feed_poll_status db.feeds feed.id g now },
              evs.map .article ++ [.commitPollStatus feed.id g])
        | none => ({ db with arts := s' }, evs.map .article) := by
  unfold poll_feed
  cases hx : fetch_and_parse_feed_with_retry fetchOracle with
  | mk r rest =>
    cases rest with
    | mk sleeps attempts =>
      rw [hx] at hfetch
      replace hfetch : r = .ok (some fd) := hfetch
      subst hfetch
      simp only [hne, Bool.false_eq_true, if_false]

/-- Helper: incrementing a feed's error counter does not change any feed's
watermark. -/
theorem increment_feed_error_map_watermark (feeds : List Feed) (i : Nat) :
    (increment_feed_error feeds i).map (·.lastPolledItemGuid) =
      feeds.map (·.lastPolledItemGuid) := by
  unfold increment_feed_error
  rw [List.map_map]
  apply List.map_congr_left
  intro f _
  by_cases h : f.id = i <;> simp [h]

/-- Helper: the incremented version of a matching feed row is in the
incremented table. -/
theorem increment_feed_error_mem_inc (feeds : List Feed) (i : Nat) (f : Feed)
    (hf : f ∈ feeds) (hid : f.id = i) :
    { f with errorCount := f.errorCount + 1 } ∈ increment_feed_error feeds i := by
  unfold increment_feed_error
  refine List.mem_map.mpr ⟨f, hf, ?_⟩
  simp [hid]

/-- Helper: a non-matching feed row is untouched by the error increment. -/
theorem increment_feed_error_mem_other (feeds : List Feed) (i : Nat) (f : Feed)
    (hf : f ∈ feeds) (hid : f.id ≠ i) :
    f ∈ increment_feed_error feeds i := by
  unfold increment_feed_error
  refine List.mem_map.mpr ⟨f, hf, ?_⟩
  simp [hid]

/-- Helper: article-level events contain no error-increment event. -/
theorem count_incrementError_map_article (evs : List ArticleEvent) (i : Nat) :
    List.count (PollEvent.incrementError i) (evs.map PollEvent.article) = 0 := by
  induction evs with
  | nil => rfl
  | cons e es ih => simp [List.count_cons, ih]

/-- Helper: article-level events contain no poll-status commit. -/
theorem commit_not_mem_map_article (evs : List ArticleEvent) (fid : Nat) (g : String) :
    PollEvent.commitPollStatus fid g ∉ evs.map PollEvent.article := by
  simp [List.mem_map]

/-- C9: a poll whose entry walk raises before completion leaves every feed's
watermark (`last_polled_item_guid`) unchanged, applies exactly the
single-statement error increment to the feed (its row appears with
`error_count + 1` and nothing else changed; other rows are untouched), logs
exactly one error-increment commit, and never commits the poll-status
update. -/
theorem poll_feed_exception_watermark_safe (fetchOracle : Nat → FetchAttemptResult)
    (procEntry : ArtStore → Entry → ProcResult) (now : Nat) (feed : Feed) (db : DB)
    (fd : FeedData) (s' : ArtStore) (evs : List ArticleEvent)
    (hfetch : (fetch_and_parse_feed_with_retry fetchOracle).1 = .ok (some fd))
    (hne : fd.entries.isEmpty = false)
    (hwalk : pollWalk procEntry feed.lastPolledItemGuid
        (sortEntriesNewestFirst fd.entries) none db.arts [] = .raised s' evs) :
    (poll_feed fetchOracle procEntry now feed db).1.feeds =
      increment_feed_error db.feeds feed.id ∧
    (poll_feed fetchOracle procEntry now feed db).1.feeds.map (·.lastPolledItemGuid) =
      db.feeds.map (·.lastPolledItemGuid) ∧
    (∀ f ∈ db.feeds, f.id = feed.id →
      { f with errorCount := f.errorCount + 1 } ∈
        (poll_feed fetchOracle procEntry now feed db).1.feeds) ∧
    (∀ f ∈ db.feeds, f.id ≠ feed.id →
      f ∈ (poll_feed fetchOracle procEntry now feed db).1.feeds) ∧
    List.count (PollEvent.incrementError feed.id)
      (poll_feed fetchOracle procEntry now feed db).2 = 1 ∧
    (∀ fid g, PollEvent.commitPollStatus fid g ∉
      (poll_feed fetchOracle procEntry now feed db).2) := by
  have heq : poll_feed fetchOracle procEntry now feed db =
      ({ arts := s', feeds := increment_feed_error db.feeds feed.id },
        evs.map .article ++ [.incrementError feed.id]) := by
    rw [poll_feed_of_fetch_ok fetchOracle procEntry now feed db fd hfetch hne, hwalk]
  rw [heq]
  refine ⟨rfl, increment_feed_error_map_watermark db.feeds feed.id,
    fun f hf hid => increment_feed_error_mem_inc db.feeds feed.id f hf hid,
    fun f hf hid => increment_feed_error_mem_other db.feeds feed.id f hf hid,
    ?_, ?_⟩
  · rw [List.count_append, count_incrementError_map_article]
    simp
  · intro fid g
    rw [List.mem_append]
    rintro (h | h)
    · exact commit_not_mem_map_article evs fid g h
    · simp at h

/-- Witness for `poll_feed_exception_watermark_safe`: one feed, one entry,
an entry processor that raises immediately. -/
theorem poll_feed_exception_watermark_safe_witness :
    (fetch_and_parse_feed_with_retry (fun _ => .parsed ⟨[e1Entry]⟩)).1 =
      .ok (some ⟨[e1Entry]⟩) ∧
    pollWalk (fun s _ => .exn s []) wFeed.lastPolledItemGuid
      (sortEntriesNewestFirst [e1Entry]) none wDB.arts [] =
      .raised wDB.arts [] ∧
    (poll_feed (fun _ => .parsed ⟨[e1Entry]⟩) (fun s _ => .exn s []) 0 wFeed wDB).1.feeds.map
      (·.lastPolledItemGuid) = wDB.feeds.map (·.lastPolledItemGuid) ∧
    List.count (PollEvent.incrementError wFeed.id)
      (poll_feed (fun _ => .parsed ⟨[e1Entry]⟩) (fun s _ => .exn s []) 0 wFeed wDB).2 = 1 := by
  have h := poll_feed_exception_watermark_safe (fun _ => .parsed ⟨[e1Entry]⟩)
    (fun s _ => .exn s []) 0 wFeed wDB ⟨[e1Entry]⟩ wDB.arts [] (by rfl) (by decide)
    (by decide)
  exact ⟨by rfl, by decide, h.2.1, h.2.2.2.2.1⟩

/-- Helper: a GUID not among the stored GUIDs is not found. -/
theorem findArticleByGuid_none_of_not_mem (s : ArtStore) (g : String)
    (h : g ∉ s.articles.map (·.guid)) : findArticleByGuid s g = none := by
  unfold findArticleByGuid
  rw [List.find?_eq_none]
  intro a ha
  simp only [decide_eq_true_eq]
  intro hg
  exact h (List.mem_map.mpr ⟨a, ha, hg⟩)

/-- Helper: a found-nothing GUID is not among the stored GUIDs. -/
theorem not_mem_of_findArticleByGuid_none (s : ArtStore) (g : String)
    (h : findArticleByGuid s g = none) : g ∉ s.articles.map (·.guid) := by
  unfold findArticleByGuid at h
  rw [List.find?_eq_none] at h
  intro hmem
  obtain ⟨a, ha, hg⟩ := List.mem_map.mp hmem
  exact h a ha (by simp [hg])

/-- Helper: the content/status overwrite does not change stored GUIDs. -/
theorem setContentAndStatus_map_guid (s : ArtStore) (i : Nat) (c st : String) :
    (setContentAndStatus s i c st).articles.map (·.guid) = s.articles.map (·.guid) := by
  unfold setContentAndStatus updateArticlesById
  rw [List.map_map]
  apply List.map_congr_left
  intro a _
  by_cases h : a.id = i <;> simp [h]

/-- Helper: the status overwrite does not change stored GUIDs. -/
theorem setProcessingStatus_map_guid (s : ArtStore) (i : Nat) (st : String) :
    (setProcessingStatus s i st).articles.map (·.guid) = s.articles.map (·.guid) := by
  unfold setProcessingStatus updateArticlesById
  rw [List.map_map]
  apply List.map_congr_left
  intro a _
  by_cases h : a.id = i <;> simp [h]

/-- Helper: processing an entry with a fresh GUID appends exactly that GUID
to the stored GUIDs and logs exactly one insert. -/
theorem process_entry_fresh (oracle : Nat → ExtractOutcome) (scl : String)
    (s : ArtStore) (feedId : Nat) (e : Entry)
    (h : findArticleByGuid s (entryGuid e) = none) :
    (process_entry oracle scl s feedId e).1.articles.map (·.guid) =
      s.articles.map (·.guid) ++ [entryGuid e] ∧
    (process_entry oracle scl s feedId e).2.filterMap evInsertGuid = [entryGuid e] := by
  have hadd : add_article s feedId (entryGuid e) (e.linkField.getD "")
      (e.titleField.getD "No Title") e.published none "pending_content" =
      (some s.nextArticleId,
        { articles := s.articles ++ [⟨s.nextArticleId, feedId, entryGuid e,
            e.linkField.getD "", e.titleField.getD "No Title", e.published, none,
            "pending_content", none, none, none⟩],
          nextArticleId := s.nextArticleId + 1 }) := by
    unfold add_article
    rw [h]
  cases hex : extract_content_with_retry oracle e with
  | mk content sleeps =>
    by_cases hc : content = ""
    · simp only [process_entry, h, Option.isNone_none, if_true, hadd, hex, hc,
        ne_eq, not_true_eq_false, if_false]
      constructor
      · rw [setProcessingStatus_map_guid, List.map_append]
        rfl
      · rfl
    · simp only [process_entry, h, Option.isNone_none, if_true, hadd, hex,
        if_pos hc]
      constructor
      · rw [setContentAndStatus_map_guid, List.map_append]
        rfl
      · rfl

/-- Helper: a walk step over a new entry (no GUID match) with no prior
latest GUID records the entry's GUID as latest and recurses. -/
theorem pollWalk_step_first (procEntry : ArtStore → Entry → ProcResult)
    (lastGuid : Option String) (e : Entry) (rest : List Entry) (s : ArtStore)
    (evs : List ArticleEvent) (s' : ArtStore) (pevs : List ArticleEvent)
    (hg : lastGuid ≠ some (entryGuid e)) (hp : procEntry s e = .ok s' pevs) :
    pollWalk procEntry lastGuid (e :: rest) none s evs =
      pollWalk procEntry lastGuid rest (some (entryGuid e)) s' (evs ++ pevs) := by
  conv_lhs => rw [pollWalk]
  rw [if_neg hg, hp]
  rfl

/-- Helper: a walk step over a new entry with a latest GUID already set
keeps it and recurses. -/
theorem pollWalk_step_next (procEntry : ArtStore → Entry → ProcResult)
    (lastGuid : Option String) (e : Entry) (rest : List Entry) (g : String)
    (s : ArtStore) (evs : List ArticleEvent) (s' : ArtStore) (pevs : List ArticleEvent)
    (hg : lastGuid ≠ some (entryGuid e)) (hp : procEntry s e = .ok s' pevs) :
    pollWalk procEntry lastGuid (e :: rest) (some g) s evs =
      pollWalk procEntry lastGuid rest (some g) s' (evs ++ pevs) := by
  conv_lhs => rw [pollWalk]
  rw [if_neg hg, hp]
  rfl

/-- Helper: the walk stops at the watermark GUID. -/
theorem pollWalk_step_stop (procEntry : ArtStore → Entry → ProcResult)
    (lastGuid : Option String) (e : Entry) (rest : List Entry)
    (latest : Option String) (s : ArtStore) (evs : List ArticleEvent)
    (hg : lastGuid = some (entryGuid e)) :
    pollWalk procEntry lastGuid (e :: rest) latest s evs = .completed s latest evs := by
  conv_lhs => rw [pollWalk]
  rw [if_pos hg]

/-- Helper: `procEntryReal` returns `ok` with `process_entry`'s result. -/
theorem procEntryReal_eq (oracle : Entry → Nat → ExtractOutcome) (scl : String)
    (feedId : Nat) (s : ArtStore) (e : Entry) (s' : ArtStore)
    (pevs : List ArticleEvent)
    (hp : process_entry (oracle e) scl s feedId e = (s', pevs)) :
    procEntryReal oracle scl feedId s e = .ok s' pevs := by
  unfold procEntryReal
  rw [hp]

/-- Helper: poll-level insert projections of article events. -/
theorem filterMap_pollInsertGuid_map_article (evs : List ArticleEvent) :
    (evs.map PollEvent.article).filterMap pollInsertGuid = evs.filterMap evInsertGuid := by
  induction evs with
  | nil => rfl
  | cons e es ih => cases e <;> simp [pollInsertGuid, evInsertGuid, ih]

/-- Helper: article events project to no poll-status commits. -/
theorem filterMap_pollCommit_map_article (evs : List ArticleEvent) :
    (evs.map PollEvent.article).filterMap pollCommit = [] := by
  induction evs with
  | nil => rfl
  | cons e es ih => cases e <;> simp [pollCommit, ih]

/-- Helper: composition form of the insert projection. -/
theorem filterMap_pollInsertGuid_comp (evs : List ArticleEvent) :
    evs.filterMap (pollInsertGuid ∘ PollEvent.article) = evs.filterMap evInsertGuid := by
  induction evs with
  | nil => rfl
  | cons e es ih => cases e <;> simp [pollInsertGuid, evInsertGuid, ih]

/-- Helper: composition form of the commit projection. -/
theorem filterMap_pollCommit_comp (evs : List ArticleEvent) :
    evs.filterMap (pollCommit ∘ PollEvent.article) = [] := by
  induction evs with
  | nil => rfl
  | cons e es ih => cases e <;> simp [pollCommit, ih]

/-- Helper: the watermark-committed version of a matching feed row is in the
updated table. -/
theorem update_feed_poll_status_mem (feeds : List Feed) (i : Nat) (g : String)
    (now : Nat) (f : Feed) (hf : f ∈ feeds) (hid : f.id = i) :
    { f with lastPolledItemGuid := some g, lastSuccessfulPollTimestamp := some now,
             errorCount := 0 } ∈ update_feed_poll_status feeds i g now := by
  unfold update_feed_poll_status
  refine List.mem_map.mpr ⟨f, hf, ?_⟩
  simp [hid]

/-- C1: for a feed whose stored watermark is `G0`, polling when the fetched
entries sort newest-first to `[G1, G2, G3, G0]` (the new GUIDs distinct and
absent from the store, and `G1` non-empty so that the source's
`if latest_guid:` truthiness commit-guard passes) inserts exactly the
articles `G1, G2, G3`, processed newest-first; the poll-status commit
happens exactly once, as the final commit after the walk, and sets the
watermark to `G1`, the first (most recent) new GUID seen; the error counter
is never touched. -/
theorem poll_feed_watermark_walk
    (fetchOracle : Nat → FetchAttemptResult) (extOracle : Entry → Nat → ExtractOutcome)
    (scl : String) (now : Nat) (feed : Feed) (db : DB)
    (e0 e1 e2 e3 : Entry) (fd : FeedData)
    (hfetch : (fetch_and_parse_feed_with_retry fetchOracle).1 = .ok (some fd))
    (hsort : sortEntriesNewestFirst fd.entries = [e1, e2, e3, e0])
    (hwm : feed.lastPolledItemGuid = some (entryGuid e0))
    (hge1 : entryGuid e1 ≠ "")
    (h10 : entryGuid e1 ≠ entryGuid e0) (h20 : entryGuid e2 ≠ entryGuid e0)
    (h30 : entryGuid e3 ≠ entryGuid e0)
    (h12 : entryGuid e1 ≠ entryGuid e2) (h13 : entryGuid e1 ≠ entryGuid e3)
    (h23 : entryGuid e2 ≠ entryGuid e3)
    (habs1 : findArticleByGuid db.arts (entryGuid e1) = none)
    (habs2 : findArticleByGuid db.arts (entryGuid e2) = none)
    (habs3 : findArticleByGuid db.arts (entryGuid e3) = none) :
    (poll_feed fetchOracle (procEntryReal extOracle scl feed.id) now feed db).2.filterMap
        pollInsertGuid = [entryGuid e1, entryGuid e2, entryGuid e3] ∧
    (poll_feed fetchOracle (procEntryReal extOracle scl feed.id) now feed
        db).1.arts.articles.map (·.guid) =
      db.arts.articles.map (·.guid) ++ [entryGuid e1, entryGuid e2, entryGuid e3] ∧
    (poll_feed fetchOracle (procEntryReal extOracle scl feed.id) now feed db).2.filterMap
        pollCommit = [(feed.id, entryGuid e1)] ∧
    (poll_feed fetchOracle (procEntryReal extOracle scl feed.id) now feed db).2.getLast? =
      some (.commitPollStatus feed.id (entryGuid e1)) ∧
    (poll_feed fetchOracle (procEntryReal extOracle scl feed.id) now feed db).1.feeds =
      update_feed_poll_status db.feeds feed.id (entryGuid e1) now ∧
    (∀ f ∈ db.feeds, f.id = feed.id →
      { f with lastPolledItemGuid := some (entryGuid e1),
               lastSuccessfulPollTimestamp := some now, errorCount := 0 } ∈
        (poll_feed fetchOracle (procEntryReal extOracle scl feed.id) now feed db).1.feeds) ∧
    PollEvent.incrementError feed.id ∉
      (poll_feed fetchOracle (procEntryReal extOracle scl feed.id) now feed db).2 := by
  have hne : fd.entries.isEmpty = false := by
    cases hfd : fd.entries with
    | nil =>
      rw [hfd] at hsort
      simp [sortEntriesNewestFirst] at hsort
    | cons a l => rfl
  rcases hpe1 : process_entry (extOracle e1) scl db.arts feed.id e1 with ⟨s1, p1⟩
  have hf1 := process_entry_fresh (extOracle e1) scl db.arts feed.id e1 habs1
  rw [hpe1] at hf1
  have hf1a : s1.articles.map (·.guid) =
      db.arts.articles.map (·.guid) ++ [entryGuid e1] := hf1.1
  have hf1b : p1.filterMap evInsertGuid = [entryGuid e1] := hf1.2
  have habs2' : findArticleByGuid s1 (entryGuid e2) = none := by
    apply findArticleByGuid_none_of_not_mem
    rw [hf1a]
    simp only [List.mem_append, List.mem_singleton, not_or]
    exact ⟨not_mem_of_findArticleByGuid_none db.arts _ habs2, Ne.symm h12⟩
  rcases hpe2 : process_entry (extOracle e2) scl s1 feed.id e2 with ⟨s2, p2⟩
  have hf2 := process_entry_fresh (extOracle e2) scl s1 feed.id e2 habs2'
  rw [hpe2] at hf2
  have hf2a : s2.articles.map (·.guid) =
      s1.articles.map (·.guid) ++ [entryGuid e2] := hf2.1
  have hf2b : p2.filterMap evInsertGuid = [entryGuid e2] := hf2.2
  have habs3' : findArticleByGuid s2 (entryGuid e3) = none := by
    apply findArticleByGuid_none_of_not_mem
    rw [hf2a, hf1a]
    simp only [List.append_assoc, List.mem_append, List.mem_singleton, not_or]
    exact ⟨not_mem_of_findArticleByGuid_none db.arts _ habs3, Ne.symm h13, Ne.symm h23⟩
  rcases hpe3 : process_entry (extOracle e3) scl s2 feed.id e3 with ⟨s3, p3⟩
  have hf3 := process_entry_fresh (extOracle e3) scl s2 feed.id e3 habs3'
  rw [hpe3] at hf3
  have hf3a : s3.articles.map (·.guid) =
      s2.articles.map (·.guid) ++ [entryGuid e3] := hf3.1
  have hf3b : p3.filterMap evInsertGuid = [entryGuid e3] := hf3.2
  have hproc1 := procEntryReal_eq extOracle scl feed.id db.arts e1 s1 p1 hpe1
  have hproc2 := procEntryReal_eq extOracle scl feed.id s1 e2 s2 p2 hpe2
  have hproc3 := procEntryReal_eq extOracle scl feed.id s2 e3 s3 p3 hpe3
  have hg1 : feed.lastPolledItemGuid ≠ some (entryGuid e1) := by
    rw [hwm]
    simp only [ne_eq, Option.some.injEq]
    exact fun hh => h10 hh.symm
  have hg2 : feed.lastPolledItemGuid ≠ some (entryGuid e2) := by
    rw [hwm]
    simp only [ne_eq, Option.some.injEq]
    exact fun hh => h20 hh.symm
  have hg3 : feed.lastPolledItemGuid ≠ some (entryGuid e3) := by
    rw [hwm]
    simp only [ne_eq, Option.some.injEq]
    exact fun hh => h30 hh.symm
  have hwalk : pollWalk (procEntryReal extOracle scl feed.id) feed.lastPolledItemGuid
      [e1, e2, e3, e0] none db.arts [] =
      .completed s3 (some (entryGuid e1)) ((([] ++ p1) ++ p2) ++ p3) := by
    rw [pollWalk_step_first _ _ _ _ _ _ _ _ hg1 hproc1,
      pollWalk_step_next _ _ _ _ _ _ _ _ _ hg2 hproc2,
      pollWalk_step_next _ _ _ _ _ _ _ _ _ hg3 hproc3,
      pollWalk_step_stop _ _ _ _ _ _ _ hwm]
  have heq : poll_feed fetchOracle (procEntryReal extOracle scl feed.id) now feed db =
      ({ arts := s3, feeds := update_feed_poll_status db.feeds feed.id (entryGuid e1) now },
        ((([] ++ p1) ++ p2) ++ p3).map .article ++
          [.commitPollStatus feed.id (entryGuid e1)]) := by
    rw [poll_feed_of_fetch_ok _ _ now feed db fd hfetch hne, hsort, hwalk]
    simp only [if_neg hge1]
  rw [heq]
  refine ⟨?_, ?_, ?_, ?_, rfl, ?_, ?_⟩
  · simp [List.filterMap_append, filterMap_pollInsertGuid_comp, hf1b, hf2b, hf3b,
      pollInsertGuid]
  · rw [hf3a, hf2a, hf1a]
    simp [List.append_assoc]
  · simp [List.filterMap_append, filterMap_pollCommit_comp, pollCommit]
  · rw [List.getLast?_concat]
  · intro f hf hid
    exact update_feed_poll_status_mem db.feeds feed.id _ now f hf hid
  · simp [List.mem_append, List.mem_map]

/-- Witness for `poll_feed_watermark_walk`: the shuffled four-entry feed
against the `"G0"`-watermarked feed. -/
theorem poll_feed_watermark_walk_witness :
    sortEntriesNewestFirst gFeedData.entries =
      [mkGEntry "G1" 4, mkGEntry "G2" 3, mkGEntry "G3" 2, mkGEntry "G0" 1] ∧
    (poll_feed (fun _ => .parsed gFeedData)
        (procEntryReal (fun _ _ => .exn) "full" g0Feed.id) 0 g0Feed g0DB).2.filterMap
      pollInsertGuid = ["G1", "G2", "G3"] ∧
    (poll_feed (fun _ => .parsed gFeedData)
        (procEntryReal (fun _ _ => .exn) "full" g0Feed.id) 0 g0Feed g0DB).1.feeds =
      update_feed_poll_status g0DB.feeds g0Feed.id "G1" 0 := by
  have h := poll_feed_watermark_walk (fun _ => .parsed gFeedData) (fun _ _ => .exn)
    "full" 0 g0Feed g0DB (mkGEntry "G0" 1) (mkGEntry "G1" 4) (mkGEntry "G2" 3)
    (mkGEntry "G3" 2) gFeedData (by rfl) (by decide) (by decide) (by decide)
    (by decide) (by decide) (by decide) (by decide) (by decide) (by decide)
    (by decide) (by decide) (by decide)
  exact ⟨by decide, h.1, h.2.2.2.2.1⟩

/-- Helper: a row with a different id is untouched by an UPDATE ... WHERE id. -/
theorem updateArticlesById_mem_other (s : ArtStore) (i : Nat) (f : Article → Article)
    (x : Article) (hx : x ∈ s.articles) (hne : x.id ≠ i) :
    x ∈ (updateArticlesById s i f).articles := by
  refine List.mem_map.mpr ⟨x, hx, ?_⟩
  simp [hne]

/-- Helper: a row with the matching id is replaced by its update. -/
theorem updateArticlesById_mem_eq (s : ArtStore) (i : Nat) (f : Article → Article)
    (x : Article) (hx : x ∈ s.articles) (heq : x.id = i) :
    f x ∈ (updateArticlesById s i f).articles := by
  refine List.mem_map.mpr ⟨x, hx, ?_⟩
  simp [heq]

/-- Helper: an id-preserving UPDATE leaves the id column unchanged. -/
theorem updateArticlesById_map_id (s : ArtStore) (i : Nat) (f : Article → Article)
    (hid : ∀ a, (f a).id = a.id) :
    (updateArticlesById s i f).articles.map (·.id) = s.articles.map (·.id) := by
  unfold updateArticlesById
  rw [List.map_map]
  apply List.map_congr_left
  intro a _
  by_cases h : a.id = i <;> simp [h, hid]

/-- Helper: the no-match branch equation of `arxiv_process_article`. -/
theorem arxiv_process_article_none (fetch : String → ArxivFetchResult)
    (s : ArtStore) (b : Article)
    (hx : (extract_arxiv_id b.link).orElse (fun _ => extract_arxiv_id b.guid) = none) :
    arxiv_process_article fetch s b =
      update_article_arxiv_status s b.id none "not_applicable" := by
  simp only [arxiv_process_article, hx]

/-- Helper: the extracted branch equation of `arxiv_process_article`. -/
theorem arxiv_process_article_hit_ok (fetch : String → ArxivFetchResult)
    (s : ArtStore) (b : Article) (arxivId content : String)
    (hx : (extract_arxiv_id b.link).orElse (fun _ => extract_arxiv_id b.guid) =
      some arxivId) (hf : fetch arxivId = .ok content) :
    arxiv_process_article fetch s b =
      update_article_full_content
        (update_article_arxiv_status s b.id (some arxivId) "pending")
        b.id content "extracted" := by
  simp only [arxiv_process_article, hx, hf]

/-- Helper: the unavailable branch equation of `arxiv_process_article`. -/
theorem arxiv_process_article_hit_unavailable (fetch : String → ArxivFetchResult)
    (s : ArtStore) (b : Article) (arxivId : String)
    (hx : (extract_arxiv_id b.link).orElse (fun _ => extract_arxiv_id b.guid) =
      some arxivId) (hf : fetch arxivId = .unavailable) :
    arxiv_process_article fetch s b =
      update_article_arxiv_status
        (update_article_arxiv_status s b.id (some arxivId) "pending")
        b.id (some arxivId) "failed" := by
  simp only [arxiv_process_article, hx, hf]

/-- Helper: the exception branch equation of `arxiv_process_article`. -/
theorem arxiv_process_article_hit_exn (fetch : String → ArxivFetchResult)
    (s : ArtStore) (b : Article) (arxivId : String)
    (hx : (extract_arxiv_id b.link).orElse (fun _ => extract_arxiv_id b.guid) =
      some arxivId) (hf : fetch arxivId = .exn) :
    arxiv_process_article fetch s b =
      update_article_arxiv_status
        (update_article_arxiv_status s b.id (some arxivId) "pending")
        b.id (some arxivId) "failed" := by
  simp only [arxiv_process_article, hx, hf]

/-- Helper: the single-UPDATE store methods never change the id column. -/
theorem update_article_arxiv_status_map_id (s : ArtStore) (i : Nat)
    (aid : Option String) (st : String) :
    (update_article_arxiv_status s i aid st).articles.map (·.id) =
      s.articles.map (·.id) :=
  updateArticlesById_map_id s i _ (fun _ => rfl)

/-- Helper: the full-content UPDATE never changes the id column. -/
theorem update_article_full_content_map_id (s : ArtStore) (i : Nat)
    (fc st : String) :
    (update_article_full_content s i fc st).articles.map (·.id) =
      s.articles.map (·.id) :=
  updateArticlesById_map_id s i _ (fun _ => rfl)

/-- Helper: processing an article for ArXiv content never changes the id
column. -/
theorem arxiv_process_article_map_id (fetch : String → ArxivFetchResult)
    (s : ArtStore) (b : Article) :
    (arxiv_process_article fetch s b).articles.map (·.id) = s.articles.map (·.id) := by
  cases hx : (extract_arxiv_id b.link).orElse (fun _ => extract_arxiv_id b.guid) with
  | none =>
    rw [arxiv_process_article_none fetch s b hx]
    exact update_article_arxiv_status_map_id s b.id none "not_applicable"
  | some arxivId =>
    cases hf : fetch arxivId with
    | ok content =>
      rw [arxiv_process_article_hit_ok fetch s b arxivId content hx hf,
        update_article_full_content_map_id, update_article_arxiv_status_map_id]
    | unavailable =>
      rw [arxiv_process_article_hit_unavailable fetch s b arxivId hx hf,
        update_article_arxiv_status_map_id, update_article_arxiv_status_map_id]
    | exn =>
      rw [arxiv_process_article_hit_exn fetch s b arxivId hx hf,
        update_article_arxiv_status_map_id, update_article_arxiv_status_map_id]

/-- Helper: a row with a different id survives the whole per-article ArXiv
processing unchanged. -/
theorem arxiv_process_article_mem_other (fetch : String → ArxivFetchResult)
    (s : ArtStore) (b : Article) (x : Article) (hx : x ∈ s.articles)
    (hne : x.id ≠ b.id) :
    x ∈ (arxiv_process_article fetch s b).articles := by
  cases hext : (extract_arxiv_id b.link).orElse (fun _ => extract_arxiv_id b.guid) with
  | none =>
    rw [arxiv_process_article_none fetch s b hext]
    exact updateArticlesById_mem_other s b.id _ x hx hne
  | some arxivId =>
    cases hf : fetch arxivId with
    | ok content =>
      rw [arxiv_process_article_hit_ok fetch s b arxivId content hext hf]
      exact updateArticlesById_mem_other _ b.id _ x
        (updateArticlesById_mem_other s b.id _ x hx hne) hne
    | unavailable =>
      rw [arxiv_process_article_hit_unavailable fetch s b arxivId hext hf]
      exact updateArticlesById_mem_other _ b.id _ x
        (updateArticlesById_mem_other s b.id _ x hx hne) hne
    | exn =>
      rw [arxiv_process_article_hit_exn fetch s b arxivId hext hf]
      exact updateArticlesById_mem_other _ b.id _ x
        (updateArticlesById_mem_other s b.id _ x hx hne) hne

/-- Helper: when neither link nor GUID matches an ArXiv pattern, processing
is exactly the `not_applicable`/NULL-id UPDATE. -/
theorem arxiv_process_article_nomatch (fetch : String → ArxivFetchResult)
    (s : ArtStore) (b : Article) (hbl : extract_arxiv_id b.link = none)
    (hbg : extract_arxiv_id b.guid = none) :
    arxiv_process_article fetch s b =
      update_article_arxiv_status s b.id none "not_applicable" := by
  unfold arxiv_process_article
  rw [hbl, hbg]
  rfl

/-- Helper: descending insertion grows the length by one. -/
theorem insertArticleByPublished_length (a : Article) (l : List Article) :
    (insertArticleByPublished a l).length = l.length + 1 := by
  induction l with
  | nil => rfl
  | cons x xs ih =>
    unfold insertArticleByPublished
    by_cases h : a.publishedDate ≥ x.publishedDate <;> simp [h, ih]

/-- Helper: sorting articles preserves the length. -/
theorem sortArticlesNewestFirst_length (l : List Article) :
    (sortArticlesNewestFirst l).length = l.length := by
  induction l with
  | nil => rfl
  | cons x xs ih =>
    unfold sortArticlesNewestFirst
    rw [insertArticleByPublished_length, ih]
    rfl

/-- Helper: members of a descending insertion come from the inserted element
or the list. -/
theorem mem_of_mem_insertArticleByPublished (a x : Article) (l : List Article) :
    x ∈ insertArticleByPublished a l → x = a ∨ x ∈ l := by
  induction l with
  | nil =>
    intro h
    simpa [insertArticleByPublished] using h
  | cons y ys ih =>
    intro h
    unfold insertArticleByPublished at h
    by_cases hc : a.publishedDate ≥ y.publishedDate
    · rw [if_pos hc] at h
      rcases List.mem_cons.mp h with h1 | h2
      · exact Or.inl h1
      · exact Or.inr h2
    · rw [if_neg hc] at h
      rcases List.mem_cons.mp h with h1 | h2
      · exact Or.inr (by simp [h1])
      · rcases ih h2 with h' | h'
        · exact Or.inl h'
        · exact Or.inr (List.mem_cons_of_mem y h')

/-- Helper: members of the sorted list are members of the list. -/
theorem mem_of_mem_sortArticlesNewestFirst (x : Article) (l : List Article) :
    x ∈ sortArticlesNewestFirst l → x ∈ l := by
  induction l with
  | nil =>
    intro h
    simp [sortArticlesNewestFirst] at h
  | cons y ys ih =>
    intro h
    unfold sortArticlesNewestFirst at h
    rcases mem_of_mem_insertArticleByPublished y x _ h with h' | h'
    · simp [h']
    · exact List.mem_cons_of_mem y (ih h')

/-- Helper: batch members are candidate rows of the store. -/
theorem batch_subset (t : ArtStore) (limit : Nat) (b : Article)
    (hb : b ∈ get_articles_for_arxiv_extraction t limit) :
    b ∈ t.articles ∧ arxiv_candidate b = true := by
  unfold get_articles_for_arxiv_extraction at hb
  have h1 := mem_of_mem_sortArticlesNewestFirst b _ (List.mem_of_mem_take hb)
  exact ⟨(List.mem_filter.mp h1).1, (List.mem_filter.mp h1).2⟩

/-- Helper: a store holding a candidate row yields a non-empty batch. -/
theorem get_arxiv_candidates_ne_nil (t : ArtStore) (limit : Nat) (hl : 0 < limit)
    (x : Article) (hx : x ∈ t.articles) (hcand : arxiv_candidate x = true) :
    get_articles_for_arxiv_extraction t limit ≠ [] := by
  unfold get_articles_for_arxiv_extraction
  intro h
  rcases List.take_eq_nil_iff.mp h with h0 | hnil
  · omega
  · have hlen := sortArticlesNewestFirst_length (t.articles.filter arxiv_candidate)
    rw [hnil] at hlen
    have hfil : t.articles.filter arxiv_candidate = [] :=
      List.eq_nil_of_length_eq_zero hlen.symm
    have hmem := List.mem_filter.mpr ⟨hx, hcand⟩
    rw [hfil] at hmem
    simp at hmem

/-- Helper: one per-article processing step preserves the invariant, as long
as any article sharing the problem article's id also shares its link and
GUID. -/
theorem bulkWitnessInv_process (fetch : String → ArxivFetchResult) (a : Article)
    (hnolink : extract_arxiv_id a.link = none)
    (hnoguid : extract_arxiv_id a.guid = none)
    (t : ArtStore) (b : Article)
    (hOKb : b.id = a.id → b.link = a.link ∧ b.guid = a.guid)
    (hInv : bulkWitnessInv a t) :
    bulkWitnessInv a (arxiv_process_article fetch t b) := by
  obtain ⟨⟨x, hx, hid, hlink, hguid, hst⟩, hnd⟩ := hInv
  refine ⟨?_, by rw [arxiv_process_article_map_id]; exact hnd⟩
  by_cases hxb : x.id = b.id
  · have hbid : b.id = a.id := by rw [← hxb, hid]
    obtain ⟨hbl', hbg'⟩ := hOKb hbid
    rw [arxiv_process_article_nomatch fetch t b (by rw [hbl']; exact hnolink)
      (by rw [hbg']; exact hnoguid)]
    refine ⟨{ x with arxivId := none, fullContentStatus := some "not_applicable" },
      ?_, hid, hlink, hguid, by simp [arxivStatusOpen]⟩
    exact updateArticlesById_mem_eq t b.id _ x hx hxb
  · exact ⟨x, arxiv_process_article_mem_other fetch t b x hx hxb, hid, hlink, hguid, hst⟩

/-- Helper: a whole batch fold preserves the invariant under the same
per-element condition. -/
theorem bulkWitnessInv_foldl (fetch : String → ArxivFetchResult) (a : Article)
    (hnolink : extract_arxiv_id a.link = none)
    (hnoguid : extract_arxiv_id a.guid = none) :
    ∀ (batch : List Article) (t : ArtStore),
      (∀ b ∈ batch, b.id = a.id → b.link = a.link ∧ b.guid = a.guid) →
      bulkWitnessInv a t →
      bulkWitnessInv a (batch.foldl (arxiv_process_article fetch) t) := by
  intro batch
  induction batch with
  | nil =>
    intro t _ hInv
    exact hInv
  | cons b bs ih =>
    intro t hOK hInv
    rw [List.foldl_cons]
    exact ih _ (fun b' hb' => hOK b' (List.mem_cons_of_mem b hb'))
      (bulkWitnessInv_process fetch a hnolink hnoguid t b
        (hOK b (List.mem_cons_self b bs)) hInv)

/-- C10: when the store holds an article whose link or GUID carries the
arxiv.org marker but matches none of the ArXiv ID patterns (and which the
candidate query selects), continuous bulk extraction never reaches its
empty-batch exit: processing such an article is exactly the UPDATE that
marks it `not_applicable` with a NULL `arxiv_id` — a state the candidate
query selects again — so after any number of batch iterations the candidate
query still returns a non-empty batch. -/
theorem bulk_extraction_nonterminating (fetch : String → ArxivFetchResult)
    (batchSize : Nat) (hbs : 0 < batchSize) (s : ArtStore) (a : Article)
    (hmem : a ∈ s.articles) (hnodup : (s.articles.map (·.id)).Nodup)
    (hmark : arxivMarker a = true)
    (hnolink : extract_arxiv_id a.link = none)
    (hnoguid : extract_arxiv_id a.guid = none)
    (hopen : arxivStatusOpen a = true) :
    (∀ (t : ArtStore) (b : Article), extract_arxiv_id b.link = none →
      extract_arxiv_id b.guid = none →
      arxiv_process_article fetch t b =
        update_article_arxiv_status t b.id none "not_applicable") ∧
    (∀ n, get_articles_for_arxiv_extraction
        ((bulk_extraction_step fetch batchSize)^[n] s) batchSize ≠ []) := by
  refine ⟨fun t b hbl hbg => arxiv_process_article_nomatch fetch t b hbl hbg, ?_⟩
  have hcand : ∀ t, bulkWitnessInv a t →
      ∃ x ∈ t.articles, arxiv_candidate x = true := by
    rintro t ⟨⟨x, hx, hid, hlink, hguid, hst⟩, -⟩
    refine ⟨x, hx, ?_⟩
    unfold arxiv_candidate
    rw [show arxivMarker x = arxivMarker a by unfold arxivMarker; rw [hlink, hguid],
      hmark, hst]
    rfl
  have hstep : ∀ t, bulkWitnessInv a t →
      bulkWitnessInv a (bulk_extraction_step fetch batchSize t) := by
    intro t hInv
    obtain ⟨⟨x, hx, hid, hlink, hguid, hst⟩, hnd⟩ := hInv
    have hOK : ∀ b ∈ get_articles_for_arxiv_extraction t batchSize,
        b.id = a.id → b.link = a.link ∧ b.guid = a.guid := by
      intro b hb hbid
      have hbmem := (batch_subset t batchSize b hb).1
      have hbx : b = x :=
        List.inj_on_of_nodup_map hnd hbmem hx (by rw [hbid, hid])
      rw [hbx]
      exact ⟨hlink, hguid⟩
    unfold bulk_extraction_step
    exact bulkWitnessInv_foldl fetch a hnolink hnoguid _ t hOK
      ⟨⟨x, hx, hid, hlink, hguid, hst⟩, hnd⟩
  intro n
  have hInvN : bulkWitnessInv a ((bulk_extraction_step fetch batchSize)^[n] s) := by
    induction n with
    | zero => exact ⟨⟨a, hmem, rfl, rfl, rfl, hopen⟩, hnodup⟩
    | succ k ih =>
      rw [Function.iterate_succ_apply']
      exact hstep _ ih
  obtain ⟨x, hx, hc⟩ := hcand _ hInvN
  exact get_arxiv_candidates_ne_nil _ batchSize hbs x hx hc

/-- Witness for `bulk_extraction_nonterminating`: a store holding one
arxiv.org listing-page article that matches no ID pattern still yields a
non-empty batch after three bulk iterations. -/
theorem bulk_extraction_nonterminating_witness :
    (0 : Nat) < 1 ∧
    listingArticle ∈ listingStore.articles ∧
    (listingStore.articles.map (·.id)).Nodup ∧
    arxivMarker listingArticle = true ∧
    extract_arxiv_id listingArticle.link = none ∧
    extract_arxiv_id listingArticle.guid = none ∧
    arxivStatusOpen listingArticle = true ∧
    get_articles_for_arxiv_extraction
      ((bulk_extraction_step (fun _ => .unavailable) 1)^[3] listingStore) 1 ≠ [] := by
  refine ⟨by decide, by decide, by decide, by decide, by decide, by decide, by decide, ?_⟩
  exact (bulk_extraction_nonterminating (fun _ => .unavailable) 1 (by decide)
    listingStore listingArticle (by decide) (by decide) (by decide) (by decide)
    (by decide) (by decide)).2 3
